import Mathlib

/-!
Shallow embedding of the calculation engine of the rent-vs-buy calculator
(`src/calc/`): amortization, tax shield, buy/rent cash-flow projectors,
metrics, and the orchestrator.  Python floats are modelled as exact
rationals (`ℚ`); Python `Optional` values as `Option ℚ`; pandas DataFrames
as Lean lists of per-month record structures.
-/

namespace RentVsBuy

/-- Tax parameters (`src/calc/models.py`, class `TaxParams`). -/
structure TaxParams where
  federal_marginal_rate : ℚ
  state_marginal_rate : ℚ
  salt_cap : ℚ
  standard_deduction : ℚ
  location : String
  filing_status : String
deriving Repr, DecidableEq

/-- The annual itemizable total computed inside `calculate_tax_shield`
(`src/calc/buy_flow.py` lines 85-93): annualized interest plus
SALT-capped annualized property tax plus the points deduction. -/
def total_itemizable (mortgage_interest property_tax : ℚ) (tax_params : TaxParams)
    (points_deduction : ℚ) : ℚ :=
  mortgage_interest * 12 + min (property_tax * 12) tax_params.salt_cap + points_deduction

/-- `calculate_tax_shield` (`src/calc/buy_flow.py` lines 66-102):
monthly tax shield from itemizing versus the standard deduction. -/
def calculate_tax_shield (mortgage_interest property_tax : ℚ) (tax_params : TaxParams)
    (points_deduction : ℚ) : ℚ :=
  let ti := total_itemizable mortgage_interest property_tax tax_params points_deduction
  if ti > tax_params.standard_deduction then
    (ti - tax_params.standard_deduction) *
      (tax_params.federal_marginal_rate + tax_params.state_marginal_rate) / 12
  else 0

/-- Model of `numpy_financial.pmt(r, n, -loan)` as used by the repository:
the constant level payment of an `n`-period annuity at monthly rate `r`
with present value `loan` (`npf.pmt` returns `-(fv+pv)/nper` when the rate
is zero). -/
def pmtQ (r : ℚ) (n : ℕ) (loan : ℚ) : ℚ :=
  if r = 0 then loan / n else loan * r * (1 + r) ^ n / ((1 + r) ^ n - 1)

/-- One row of the amortization schedule DataFrame built by `amortize`
(`src/calc/amortization.py` lines 45-52). -/
structure AmortRow where
  month : ℕ
  interest : ℚ
  principal : ℚ
  balance : ℚ
  cumulative_interest : ℚ
  cumulative_principal : ℚ
deriving Repr, DecidableEq, Inhabited

/-- The loop body of `amortize` (`src/calc/amortization.py` lines 37-52):
`k` remaining iterations, current month index `m`, running balance `bal`,
running cumulative interest `ci` and principal `cp`. -/
def amortSteps (r pmt : ℚ) : ℕ → ℕ → ℚ → ℚ → ℚ → List AmortRow
  | 0, _, _, _, _ => []
  | k + 1, m, bal, ci, cp =>
    let interest := bal * r
    let principal := pmt - interest
    let bal2 := max (bal - principal) 0
    ⟨m, interest, principal, bal2, ci + interest, cp + principal⟩ ::
      amortSteps r pmt k (m + 1) bal2 (ci + interest) (cp + principal)

/-- `amortize` (`src/calc/amortization.py` lines 10-54). -/
def amortize (loan_amount rate_annual : ℚ) (term_years : ℕ) : List AmortRow :=
  if loan_amount ≤ 0 then []
  else
    let n := term_years * 12
    let r := rate_annual / 12
    amortSteps r (pmtQ r n loan_amount) n 1 loan_amount 0 0

/-- One iteration of the balance recurrence of `amortize`:
`bal ← max (bal - (pmt - bal*r)) 0`. -/
def balStep (r pmt bal : ℚ) : ℚ := max (bal - (pmt - bal * r)) 0

/-- The balance after `m` iterations of the `amortize` loop started at `loan`. -/
def balAfter (r pmt loan : ℚ) : ℕ → ℚ
  | 0 => loan
  | m + 1 => balStep r pmt (balAfter r pmt loan m)

/-- Closed form of the loop balance after `m` of `n` months (exact in `ℚ`). -/
def balExact (r : ℚ) (n : ℕ) (loan : ℚ) (m : ℕ) : ℚ :=
  if r = 0 then loan * ((n : ℚ) - m) / n
  else loan * ((1 + r) ^ n - (1 + r) ^ m) / ((1 + r) ^ n - 1)

lemma amortSteps_length (r pmt : ℚ) :
    ∀ (k m : ℕ) (bal ci cp : ℚ), (amortSteps r pmt k m bal ci cp).length = k := by
  intro k
  induction k with
  | zero => intro m bal ci cp; rfl
  | succ n ih => intro m bal ci cp; simp [amortSteps, ih]

lemma balAfter_shift (r pmt bal : ℚ) :
    ∀ i : ℕ, balAfter r pmt (balStep r pmt bal) i = balAfter r pmt bal (i + 1) := by
  intro i
  induction i with
  | zero => rfl
  | succ n ih => simp [balAfter, ih]

lemma amortSteps_get (r pmt : ℚ) :
    ∀ (k i m : ℕ) (bal ci cp : ℚ) (h : i < (amortSteps r pmt k m bal ci cp).length),
      ((amortSteps r pmt k m bal ci cp).get ⟨i, h⟩).balance = balAfter r pmt bal (i + 1) ∧
      ((amortSteps r pmt k m bal ci cp).get ⟨i, h⟩).interest = balAfter r pmt bal i * r ∧
      ((amortSteps r pmt k m bal ci cp).get ⟨i, h⟩).principal = pmt - balAfter r pmt bal i * r ∧
      ((amortSteps r pmt k m bal ci cp).get ⟨i, h⟩).month = m + i := by
  intro k
  induction k with
  | zero => intro i m bal ci cp h; simp [amortSteps_length] at h
  | succ n ih =>
    intro i m bal ci cp h
    cases i with
    | zero =>
      refine ⟨?_, ?_, ?_, ?_⟩ <;> simp [amortSteps, balAfter, balStep]
    | succ j =>
      have h2 : j < (amortSteps r pmt n (m + 1) (balStep r pmt bal)
          (ci + bal * r) (cp + (pmt - bal * r))).length := by
        simp [amortSteps_length] at h ⊢; omega
      have := ih j (m + 1) (balStep r pmt bal) (ci + bal * r) (cp + (pmt - bal * r)) h2
      rw [balAfter_shift, balAfter_shift] at this
      refine ⟨?_, ?_, ?_, ?_⟩
      · simpa [amortSteps, balStep] using this.1
      · simpa [amortSteps, balStep] using this.2.1
      · simpa [amortSteps, balStep] using this.2.2.1
      · rw [show m + (j + 1) = m + 1 + j by omega]
        simpa [amortSteps, balStep] using this.2.2.2

lemma one_lt_pow_of_pos (r : ℚ) (n : ℕ) (hr : 0 < r) (hn : 0 < n) : 1 < (1 + r) ^ n := by
  have h1 : (1 : ℚ) < 1 + r := by linarith
  calc (1 : ℚ) = 1 ^ n := (one_pow n).symm
  _ < (1 + r) ^ n := by
      apply pow_lt_pow_left₀ h1 (by norm_num)
      omega

lemma balExact_zero (r : ℚ) (n : ℕ) (loan : ℚ) (hr : 0 ≤ r) (hn : 0 < n) :
    balExact r n loan 0 = loan := by
  have hn' : (n : ℚ) ≠ 0 := Nat.cast_ne_zero.mpr hn.ne'
  unfold balExact
  split
  · rw [Nat.cast_zero, sub_zero, mul_div_assoc, div_self hn', mul_one]
  · next h =>
    have hrpos : 0 < r := lt_of_le_of_ne hr (Ne.symm h)
    have hD : (1 + r) ^ n - 1 ≠ 0 :=
      ne_of_gt (by linarith [one_lt_pow_of_pos r n hrpos hn])
    rw [pow_zero, mul_div_assoc, div_self hD, mul_one]

lemma balExact_step (r : ℚ) (n : ℕ) (loan : ℚ) (m : ℕ)
    (hr : 0 ≤ r) (hn : 0 < n) (hm : m < n) :
    balExact r n loan m * (1 + r) - pmtQ r n loan = balExact r n loan (m + 1) := by
  have hn' : (n : ℚ) ≠ 0 := Nat.cast_ne_zero.mpr hn.ne'
  unfold balExact pmtQ
  split
  · next h =>
    subst h
    push_cast
    field_simp
    ring
  · next h =>
    have hrpos : 0 < r := lt_of_le_of_ne hr (Ne.symm h)
    have hD : (1 + r) ^ n - 1 ≠ 0 :=
      ne_of_gt (by linarith [one_lt_pow_of_pos r n hrpos hn])
    field_simp
    ring

lemma balExact_nonneg (r : ℚ) (n : ℕ) (loan : ℚ) (m : ℕ)
    (hl : 0 < loan) (hr : 0 ≤ r) (hn : 0 < n) (hm : m ≤ n) :
    0 ≤ balExact r n loan m := by
  unfold balExact
  split
  · next h =>
    apply div_nonneg _ (Nat.cast_nonneg n)
    apply mul_nonneg (le_of_lt hl)
    have : (m : ℚ) ≤ (n : ℚ) := Nat.cast_le.mpr hm
    linarith
  · next h =>
    have hrpos : 0 < r := lt_of_le_of_ne hr (Ne.symm h)
    have hD : 0 ≤ (1 + r) ^ n - 1 := by linarith [one_lt_pow_of_pos r n hrpos hn]
    apply div_nonneg _ hD
    apply mul_nonneg (le_of_lt hl)
    have : (1 + r) ^ m ≤ (1 + r) ^ n := pow_le_pow_right₀ (by linarith) hm
    linarith

lemma balExact_final (r : ℚ) (n : ℕ) (loan : ℚ) : balExact r n loan n = 0 := by
  unfold balExact
  split <;> simp

lemma balExact_mono (r : ℚ) (n : ℕ) (loan : ℚ) (i j : ℕ)
    (hl : 0 < loan) (hr : 0 ≤ r) (hn : 0 < n) (hij : i ≤ j) (hj : j ≤ n) :
    balExact r n loan j ≤ balExact r n loan i := by
  unfold balExact
  split
  · next h =>
    have hn' : (0 : ℚ) < n := by exact_mod_cast hn
    have hcast : (i : ℚ) ≤ (j : ℚ) := Nat.cast_le.mpr hij
    have key : loan * ((n : ℚ) - j) ≤ loan * ((n : ℚ) - i) :=
      mul_le_mul_of_nonneg_left (by linarith) (le_of_lt hl)
    exact (div_le_div_right hn').mpr key
  · next h =>
    have hrpos : 0 < r := lt_of_le_of_ne hr (Ne.symm h)
    have hD : (0 : ℚ) < (1 + r) ^ n - 1 := by linarith [one_lt_pow_of_pos r n hrpos hn]
    have hpow : (1 + r) ^ i ≤ (1 + r) ^ j := pow_le_pow_right₀ (by linarith) hij
    have key : loan * ((1 + r) ^ n - (1 + r) ^ j) ≤ loan * ((1 + r) ^ n - (1 + r) ^ i) :=
      mul_le_mul_of_nonneg_left (by linarith) (le_of_lt hl)
    exact (div_le_div_right hD).mpr key

/-- The iterative loop balance agrees with the closed form: in exact
rational arithmetic the `max _ 0` clamp never fires before the loan is
repaid. -/
lemma balAfter_eq_balExact (r : ℚ) (n : ℕ) (loan : ℚ)
    (hl : 0 < loan) (hr : 0 ≤ r) (hn : 0 < n) :
    ∀ m, m ≤ n → balAfter r (pmtQ r n loan) loan m = balExact r n loan m := by
  intro m
  induction m with
  | zero => intro _; rw [balAfter, balExact_zero r n loan hr hn]
  | succ j ih =>
    intro hj
    have hjn : j < n := by omega
    rw [balAfter, ih (le_of_lt hjn), balStep]
    have hstep := balExact_step r n loan j hr hn hjn
    have harith : balExact r n loan j - (pmtQ r n loan - balExact r n loan j * r)
        = balExact r n loan j * (1 + r) - pmtQ r n loan := by ring
    rw [harith, hstep]
    exact max_eq_left (balExact_nonneg r n loan (j + 1) hl hr hn hj)

lemma amortSteps_sum_principal (r pmt : ℚ) :
    ∀ (k m : ℕ) (bal ci cp : ℚ),
      ((amortSteps r pmt k m bal ci cp).map AmortRow.principal).sum
        = ∑ i in Finset.range k, (pmt - balAfter r pmt bal i * r) := by
  intro k
  induction k with
  | zero => intro m bal ci cp; simp [amortSteps]
  | succ n ih =>
    intro m bal ci cp
    rw [Finset.sum_range_succ']
    rw [show amortSteps r pmt (n + 1) m bal ci cp
        = ⟨m, bal * r, pmt - bal * r, balStep r pmt bal, ci + bal * r,
            cp + (pmt - bal * r)⟩ ::
          amortSteps r pmt n (m + 1) (balStep r pmt bal) (ci + bal * r)
            (cp + (pmt - bal * r)) from rfl]
    rw [List.map_cons, List.sum_cons,
        ih (m + 1) (balStep r pmt bal) (ci + bal * r) (cp + (pmt - bal * r))]
    have hsh : ∀ i, balAfter r pmt (balStep r pmt bal) i = balAfter r pmt bal (i + 1) :=
      balAfter_shift r pmt bal
    simp only [hsh]
    rw [show balAfter r pmt bal 0 = bal from rfl]
    exact add_comm _ _

lemma sum_principal_eq_loan (loan r : ℚ) (n : ℕ)
    (hl : 0 < loan) (hr : 0 ≤ r) (hn : 0 < n) :
    ∑ i in Finset.range n, (pmtQ r n loan - balAfter r (pmtQ r n loan) loan i * r) = loan := by
  have key : ∀ i ∈ Finset.range n,
      pmtQ r n loan - balAfter r (pmtQ r n loan) loan i * r
        = balAfter r (pmtQ r n loan) loan i - balAfter r (pmtQ r n loan) loan (i + 1) := by
    intro i hi
    have hi' : i < n := Finset.mem_range.mp hi
    rw [balAfter_eq_balExact r n loan hl hr hn i (le_of_lt hi'),
        balAfter_eq_balExact r n loan hl hr hn (i + 1) hi']
    have hstep := balExact_step r n loan i hr hn hi'
    linarith
  rw [Finset.sum_congr rfl key, Finset.sum_range_sub']
  have h0 : balAfter r (pmtQ r n loan) loan 0 = loan := rfl
  have hn0 : balAfter r (pmtQ r n loan) loan n = 0 := by
    rw [balAfter_eq_balExact r n loan hl hr hn n (le_refl n), balExact_final]
  rw [h0, hn0, sub_zero]

lemma amortize_get (loan rate : ℚ) (term : ℕ) (hl : 0 < loan) (i : ℕ)
    (hi : i < (amortize loan rate term).length) :
    ((amortize loan rate term).get ⟨i, hi⟩).balance
        = balAfter (rate / 12) (pmtQ (rate / 12) (term * 12) loan) loan (i + 1) ∧
    ((amortize loan rate term).get ⟨i, hi⟩).interest
        = balAfter (rate / 12) (pmtQ (rate / 12) (term * 12) loan) loan i * (rate / 12) ∧
    ((amortize loan rate term).get ⟨i, hi⟩).principal
        = pmtQ (rate / 12) (term * 12) loan
          - balAfter (rate / 12) (pmtQ (rate / 12) (term * 12) loan) loan i * (rate / 12) ∧
    ((amortize loan rate term).get ⟨i, hi⟩).month = 1 + i := by
  have hamort : amortize loan rate term
      = amortSteps (rate / 12) (pmtQ (rate / 12) (term * 12) loan) (term * 12) 1 loan 0 0 := by
    rw [amortize, if_neg (not_le.mpr hl)]
  revert hi
  rw [hamort]
  intro hi
  exact amortSteps_get _ _ _ i 1 loan 0 0 hi

lemma amortize_length (loan rate : ℚ) (term : ℕ) (hl : 0 < loan) :
    (amortize loan rate term).length = term * 12 := by
  rw [amortize, if_neg (not_le.mpr hl)]
  exact amortSteps_length _ _ _ _ _ _ _

/-- Claim C2: for `loan_amount > 0`, annual rate `≥ 0` and positive term,
`amortize` returns exactly `term×12` rows whose balance column is
non-increasing, never negative, and zero at the final month; the principal
column sums to the loan amount and every row's interest plus principal is
the constant level payment; for `loan_amount ≤ 0` the schedule is empty. -/
theorem amortize_spec (loan rate : ℚ) (term : ℕ)
    (hl : 0 < loan) (hr : 0 ≤ rate) (ht : 0 < term) :
    (amortize loan rate term).length = term * 12 ∧
    (∀ (i j : ℕ) (hi : i < (amortize loan rate term).length)
        (hj : j < (amortize loan rate term).length), i ≤ j →
        ((amortize loan rate term).get ⟨j, hj⟩).balance
          ≤ ((amortize loan rate term).get ⟨i, hi⟩).balance) ∧
    (∀ row ∈ amortize loan rate term, 0 ≤ row.balance) ∧
    (∀ row ∈ amortize loan rate term, row.month = term * 12 → row.balance = 0) ∧
    ((amortize loan rate term).map AmortRow.principal).sum = loan ∧
    (∀ row ∈ amortize loan rate term,
        row.interest + row.principal = pmtQ (rate / 12) (term * 12) loan) ∧
    (∀ l : ℚ, l ≤ 0 → amortize l rate term = []) := by
  have hr12 : 0 ≤ rate / 12 := by positivity
  have hn12 : 0 < term * 12 := by omega
  have hlen := amortize_length loan rate term hl
  refine ⟨hlen, ?_, ?_, ?_, ?_, ?_, ?_⟩
  · intro i j hi hj hij
    have hi2 : i < term * 12 := by rwa [hlen] at hi
    have hj2 : j < term * 12 := by rwa [hlen] at hj
    rw [(amortize_get loan rate term hl i hi).1, (amortize_get loan rate term hl j hj).1,
        balAfter_eq_balExact (rate / 12) (term * 12) loan hl hr12 hn12 (i + 1) (by omega),
        balAfter_eq_balExact (rate / 12) (term * 12) loan hl hr12 hn12 (j + 1) (by omega)]
    exact balExact_mono (rate / 12) (term * 12) loan (i + 1) (j + 1) hl hr12 hn12
      (by omega) (by omega)
  · intro row hrow
    obtain ⟨⟨iv, hiv⟩, hget⟩ := List.mem_iff_get.mp hrow
    rw [← hget, (amortize_get loan rate term hl iv hiv).1, balAfter]
    exact le_max_right _ _
  · intro row hrow hmonth
    obtain ⟨⟨iv, hiv⟩, hget⟩ := List.mem_iff_get.mp hrow
    have hmonth2 : row.month = 1 + iv := by
      rw [← hget]; exact (amortize_get loan rate term hl iv hiv).2.2.2
    have hivval : iv + 1 = term * 12 := by omega
    rw [← hget, (amortize_get loan rate term hl iv hiv).1, hivval,
        balAfter_eq_balExact (rate / 12) (term * 12) loan hl hr12 hn12 _ (le_refl _),
        balExact_final]
  · rw [show amortize loan rate term
        = amortSteps (rate / 12) (pmtQ (rate / 12) (term * 12) loan) (term * 12) 1 loan 0 0
        from by rw [amortize, if_neg (not_le.mpr hl)]]
    rw [amortSteps_sum_principal]
    exact sum_principal_eq_loan loan (rate / 12) (term * 12) hl hr12 hn12
  · intro row hrow
    obtain ⟨⟨iv, hiv⟩, hget⟩ := List.mem_iff_get.mp hrow
    rw [← hget, (amortize_get loan rate term hl iv hiv).2.1,
        (amortize_get loan rate term hl iv hiv).2.2.1]
    ring
  · intro l hle
    rw [amortize, if_pos hle]

/-- Witness for `amortize_spec` at the concrete input
`loan = 1200`, `rate = 0`, `term = 1`. -/
theorem amortize_spec_witness :
    (0 : ℚ) < 1200 ∧ (0 : ℚ) ≤ 0 ∧ 0 < 1 ∧
    ((amortize 1200 0 1).length = 1 * 12 ∧
      (∀ (i j : ℕ) (hi : i < (amortize 1200 0 1).length)
          (hj : j < (amortize 1200 0 1).length), i ≤ j →
          ((amortize 1200 0 1).get ⟨j, hj⟩).balance
            ≤ ((amortize 1200 0 1).get ⟨i, hi⟩).balance) ∧
      (∀ row ∈ amortize (1200 : ℚ) 0 1, 0 ≤ row.balance) ∧
      (∀ row ∈ amortize (1200 : ℚ) 0 1, row.month = 1 * 12 → row.balance = 0) ∧
      ((amortize (1200 : ℚ) 0 1).map AmortRow.principal).sum = 1200 ∧
      (∀ row ∈ amortize (1200 : ℚ) 0 1,
          row.interest + row.principal = pmtQ (0 / 12) (1 * 12) 1200) ∧
      (∀ l : ℚ, l ≤ 0 → amortize l 0 1 = [])) :=
  ⟨by norm_num, le_refl 0, Nat.one_pos,
    amortize_spec 1200 0 1 (by norm_num) (le_refl 0) Nat.one_pos⟩

/-- Model of `numpy_financial.pv(rate, nper, pmt, fv=0, when=0)`. -/
def npfPv (rate : ℚ) (nper : ℕ) (pmt fv : ℚ) : ℚ :=
  if rate = 0 then -(fv + pmt * nper)
  else -(fv + pmt * ((1 + rate) ^ nper - 1) / rate) / (1 + rate) ^ nper

/-- `remaining_balance_at_month` (`src/calc/amortization.py` lines 120-154). -/
def remaining_balance_at_month (loan_amount rate_annual : ℚ) (term_years : ℕ)
    (month : ℤ) : ℚ :=
  if loan_amount ≤ 0 ∨ month ≤ 0 then 0
  else if month > (term_years : ℤ) * 12 then 0
  else if (term_years : ℤ) * 12 - month ≤ 0 then 0
  else max (npfPv (rate_annual / 12) ((term_years : ℤ) * 12 - month).toNat
      (-(pmtQ (rate_annual / 12) (term_years * 12) loan_amount)) 0) 0

lemma remaining_balance_nonneg (l r : ℚ) (t : ℕ) (mo : ℤ) :
    0 ≤ remaining_balance_at_month l r t mo := by
  rw [remaining_balance_at_month]
  split_ifs <;> simp [le_max_right]

/-- The closed-form present-value expression used by
`remaining_balance_at_month` agrees exactly with the closed-form loop
balance when `n = m + k` remaining payments split as stated. -/
lemma npfPv_eq_balExact (loan r : ℚ) (n m k : ℕ)
    (hl : 0 < loan) (hr : 0 ≤ r) (hn : 0 < n) (hk : n = m + k) :
    npfPv r k (-(pmtQ r n loan)) 0 = balExact r n loan m := by
  unfold npfPv pmtQ balExact
  by_cases h : r = 0
  · subst h
    simp only [if_pos rfl]
    subst hk
    have hn' : ((m + k : ℕ) : ℚ) ≠ 0 := Nat.cast_ne_zero.mpr (by omega)
    push_cast at hn' ⊢
    field_simp
  · simp only [if_neg h]
    have hrpos : 0 < r := lt_of_le_of_ne hr (Ne.symm h)
    have h1r : (0 : ℚ) < 1 + r := by linarith
    have hpk : (1 + r) ^ k ≠ 0 := ne_of_gt (pow_pos h1r k)
    have hD : (1 + r) ^ n - 1 ≠ 0 :=
      ne_of_gt (by linarith [one_lt_pow_of_pos r n hrpos hn])
    subst hk
    field_simp
    ring

/-- Claim C3: for loans in force and months inside the term, the
closed-form `remaining_balance_at_month` coincides exactly with the
balance column of the iterative `amortize` schedule; it returns 0 when
the loan is non-positive, the month is non-positive or past the term,
and in particular at the final month of the term. -/
theorem remaining_balance_spec (loan rate : ℚ) (term : ℕ) (month : ℤ)
    (hl : 0 < loan) (hr : 0 ≤ rate) (ht : 0 < term) :
    (∀ m : ℕ, month = (m : ℤ) → 1 ≤ m → m ≤ term * 12 →
      ∀ hidx : m - 1 < (amortize loan rate term).length,
        remaining_balance_at_month loan rate term month
          = ((amortize loan rate term).get ⟨m - 1, hidx⟩).balance) ∧
    (∀ (l : ℚ) (mo : ℤ), l ≤ 0 → remaining_balance_at_month l rate term mo = 0) ∧
    (month ≤ 0 → remaining_balance_at_month loan rate term month = 0) ∧
    ((term : ℤ) * 12 < month → remaining_balance_at_month loan rate term month = 0) ∧
    remaining_balance_at_month loan rate term ((term : ℤ) * 12) = 0 := by
  have hr12 : 0 ≤ rate / 12 := by positivity
  have hn12 : 0 < term * 12 := by omega
  refine ⟨?_, ?_, ?_, ?_, ?_⟩
  · intro m hmeq h1 h2 hidx
    subst hmeq
    have hbal : ((amortize loan rate term).get ⟨m - 1, hidx⟩).balance
        = balAfter (rate / 12) (pmtQ (rate / 12) (term * 12) loan) loan (m - 1 + 1) :=
      (amortize_get loan rate term hl (m - 1) hidx).1
    have hm1 : m - 1 + 1 = m := by omega
    rw [hbal, hm1, balAfter_eq_balExact (rate / 12) (term * 12) loan hl hr12 hn12 m h2]
    rw [remaining_balance_at_month, if_neg (by push_neg; exact ⟨hl, by omega⟩)]
    rw [if_neg (by omega)]
    by_cases hcase : m = term * 12
    · rw [if_pos (by omega)]
      rw [hcase]
      exact (balExact_final _ _ _).symm
    · have hmlt : m < term * 12 := by omega
      rw [if_neg (by omega)]
      have hto : (((term : ℤ) * 12 - (m : ℤ)).toNat) = term * 12 - m := by omega
      rw [hto, npfPv_eq_balExact loan (rate / 12) (term * 12) m (term * 12 - m)
        hl hr12 hn12 (by omega)]
      exact max_eq_left (balExact_nonneg (rate / 12) (term * 12) loan m hl hr12 hn12 h2)
  · intro l mo hle
    rw [remaining_balance_at_month, if_pos (Or.inl hle)]
  · intro hmo
    rw [remaining_balance_at_month, if_pos (Or.inr hmo)]
  · intro hmo
    rw [remaining_balance_at_month]
    by_cases h0 : loan ≤ 0 ∨ (month : ℤ) ≤ 0
    · rw [if_pos h0]
    · rw [if_neg h0, if_pos hmo]
  · rw [remaining_balance_at_month, if_neg (by push_neg; exact ⟨hl, by omega⟩)]
    rw [if_neg (by omega)]
    rw [if_pos (by omega)]

/-- Witness for `remaining_balance_spec` at `loan = 1200`, `rate = 0`,
`term = 1`, `month = 12`. -/
theorem remaining_balance_spec_witness :
    (0 : ℚ) < 1200 ∧ (0 : ℚ) ≤ 0 ∧ 0 < 1 ∧
    remaining_balance_at_month 1200 0 1 (((1 : ℕ) : ℤ) * 12) = 0 :=
  ⟨by norm_num, le_refl 0, Nat.one_pos,
    (remaining_balance_spec 1200 0 1 12 (by norm_num) (le_refl 0) Nat.one_pos).2.2.2.2⟩

/-- Claim C1 as stated fails on the code: with both marginal rates zero
(admissible tax parameters), the itemizable total strictly exceeds the
standard deduction yet the returned shield is `0`, not strictly
positive. -/
theorem tax_shield_counterexample :
    (⟨0, 0, 10000, 100, "NYC, NY", "single"⟩ : TaxParams).standard_deduction
        < total_itemizable 100 0 ⟨0, 0, 10000, 100, "NYC, NY", "single"⟩ 0 ∧
    calculate_tax_shield 100 0 ⟨0, 0, 10000, 100, "NYC, NY", "single"⟩ 0 = 0 ∧
    ¬ 0 < calculate_tax_shield 100 0 ⟨0, 0, 10000, 100, "NYC, NY", "single"⟩ 0 := by
  refine ⟨by norm_num [total_itemizable], ?_, ?_⟩
  · norm_num [calculate_tax_shield, total_itemizable]
  · norm_num [calculate_tax_shield, total_itemizable]

/-- Claim C1 (amended): the property-tax deduction is SALT-capped inside
`total_itemizable`; the shield is 0 when the itemizable total does not
exceed the standard deduction and otherwise equals
`(total - standard) × (federal + state) / 12`; the shield is strictly
positive and strictly monotone in the itemizable total only when the
combined marginal rate is positive (the amendment adds that rate
hypothesis). -/
theorem tax_shield_spec (mi pt : ℚ) (tp : TaxParams) (points : ℚ) :
    (total_itemizable mi pt tp points
        = mi * 12 + min (pt * 12) tp.salt_cap + points) ∧
    (total_itemizable mi pt tp points ≤ tp.standard_deduction →
        calculate_tax_shield mi pt tp points = 0) ∧
    (tp.standard_deduction < total_itemizable mi pt tp points →
        calculate_tax_shield mi pt tp points
          = (total_itemizable mi pt tp points - tp.standard_deduction) *
              (tp.federal_marginal_rate + tp.state_marginal_rate) / 12) ∧
    (tp.standard_deduction < total_itemizable mi pt tp points →
        0 < tp.federal_marginal_rate + tp.state_marginal_rate →
        0 < calculate_tax_shield mi pt tp points) ∧
    (∀ mi2 pt2 points2 : ℚ,
        0 ≤ tp.federal_marginal_rate + tp.state_marginal_rate →
        tp.standard_deduction < total_itemizable mi pt tp points →
        total_itemizable mi pt tp points ≤ total_itemizable mi2 pt2 tp points2 →
        calculate_tax_shield mi pt tp points
          ≤ calculate_tax_shield mi2 pt2 tp points2) ∧
    (∀ mi2 pt2 points2 : ℚ,
        0 < tp.federal_marginal_rate + tp.state_marginal_rate →
        tp.standard_deduction < total_itemizable mi pt tp points →
        total_itemizable mi pt tp points < total_itemizable mi2 pt2 tp points2 →
        calculate_tax_shield mi pt tp points
          < calculate_tax_shield mi2 pt2 tp points2) := by
  refine ⟨rfl, ?_, ?_, ?_, ?_, ?_⟩
  · intro hle
    rw [calculate_tax_shield, if_neg (not_lt.mpr hle)]
  · intro hgt
    rw [calculate_tax_shield, if_pos hgt]
  · intro hgt hrate
    rw [calculate_tax_shield, if_pos hgt]
    have hex : 0 < total_itemizable mi pt tp points - tp.standard_deduction := by linarith
    positivity
  · intro mi2 pt2 points2 hrate hgt hle
    rw [calculate_tax_shield, if_pos hgt, calculate_tax_shield, if_pos (lt_of_lt_of_le hgt hle)]
    have key : (total_itemizable mi pt tp points - tp.standard_deduction) *
          (tp.federal_marginal_rate + tp.state_marginal_rate)
        ≤ (total_itemizable mi2 pt2 tp points2 - tp.standard_deduction) *
          (tp.federal_marginal_rate + tp.state_marginal_rate) :=
      mul_le_mul_of_nonneg_right (by linarith) hrate
    linarith
  · intro mi2 pt2 points2 hrate hgt hlt
    rw [calculate_tax_shield, if_pos hgt, calculate_tax_shield, if_pos (lt_trans hgt hlt)]
    have key : (total_itemizable mi pt tp points - tp.standard_deduction) *
          (tp.federal_marginal_rate + tp.state_marginal_rate)
        < (total_itemizable mi2 pt2 tp points2 - tp.standard_deduction) *
          (tp.federal_marginal_rate + tp.state_marginal_rate) :=
      mul_lt_mul_of_pos_right (by linarith) hrate
    linarith

/-- Witness for `tax_shield_spec`: married-NYC-like parameters with a
positive combined marginal rate and an itemizable total above the
standard deduction give a strictly positive shield. -/
theorem tax_shield_spec_witness :
    (⟨3/10, 1/10, 10000, 14600, "NYC, NY", "married"⟩ : TaxParams).standard_deduction
        < total_itemizable 2000 0 ⟨3/10, 1/10, 10000, 14600, "NYC, NY", "married"⟩ 0 ∧
    (0 : ℚ) < (3/10 : ℚ) + 1/10 ∧
    0 < calculate_tax_shield 2000 0 ⟨3/10, 1/10, 10000, 14600, "NYC, NY", "married"⟩ 0 :=
  ⟨by norm_num [total_itemizable], by norm_num,
    (tax_shield_spec 2000 0 ⟨3/10, 1/10, 10000, 14600, "NYC, NY", "married"⟩ 0).2.2.2.1
      (by norm_num [total_itemizable]) (by norm_num)⟩

/-- `UserInputs` (`src/calc/models.py`).  `Optional[float]` fields are
`Option ℚ`; the pydantic range invariants live at the boundary and are
taken as hypotheses where a claim needs them. -/
structure UserInputs where
  income_you : ℚ
  income_spouse : ℚ
  income_growth : ℚ
  filing_status : String
  location : String
  purchase_price : ℚ
  down_payment_pct : ℚ
  closing_costs_buy : ℚ
  mortgage_rate : ℚ
  mortgage_term_years : ℕ
  points_pct : Option ℚ
  property_tax_rate : ℚ
  insurance_hoa_annual : ℚ
  maintenance_pct : ℚ
  other_owner_costs_annual : ℚ
  annual_appreciation : ℚ
  selling_cost_pct : ℚ
  rent_today_monthly : ℚ
  rent_growth_pct : ℚ
  other_renter_costs_monthly : ℚ
  alt_return_annual : ℚ
  inflation_discount_annual : ℚ
  horizon_years : ℕ
  pmi_threshold_pct : Option ℚ
  pmi_annual_pct : Option ℚ
  refinance_enabled : Bool
  expected_refi_rate : Option ℚ
deriving Repr, DecidableEq

/-- `DerivedInputs` (`src/calc/models.py`). -/
structure DerivedInputs where
  loan_amount : ℚ
  monthly_mortgage_rate : ℚ
  monthly_rent_growth_rate : ℚ
  monthly_alt_return_rate : ℚ
  monthly_inflation_rate : ℚ
  monthly_appreciation_rate : ℚ
  horizon_months : ℕ
  down_payment_amount : ℚ
deriving Repr, DecidableEq

/-- `DerivedInputs.from_user_inputs` (`src/calc/models.py` lines 61-75). -/
def DerivedInputs.from_user_inputs (u : UserInputs) : DerivedInputs where
  loan_amount := u.purchase_price * (1 - u.down_payment_pct)
  monthly_mortgage_rate := u.mortgage_rate / 12
  monthly_rent_growth_rate := u.rent_growth_pct / 12
  monthly_alt_return_rate := u.alt_return_annual / 12
  monthly_inflation_rate := u.inflation_discount_annual / 12
  monthly_appreciation_rate := u.annual_appreciation / 12
  horizon_months := u.horizon_years * 12
  down_payment_amount := u.purchase_price * u.down_payment_pct

/-- Python truthiness of an `Optional[float]`: `None` and `0.0` are falsy. -/
def truthy (x : Option ℚ) : Bool :=
  match x with
  | none => false
  | some q => q != 0

/-- The dictionary returned by `calculate_monthly_owner_costs`. -/
structure OwnerCosts where
  property_tax : ℚ
  insurance_hoa : ℚ
  maintenance : ℚ
  other_costs : ℚ
  pmi : ℚ
  total_monthly_costs : ℚ
deriving Repr, DecidableEq

/-- `calculate_monthly_owner_costs` (`src/calc/buy_flow.py` lines 12-63).
The PMI guard mirrors Python truthiness: `if pmi_annual_pct and
pmi_threshold_pct:`. -/
def calculate_monthly_owner_costs (u : UserInputs) (d : DerivedInputs)
    (home_value : ℚ) (month : ℤ) : OwnerCosts :=
  let monthly_property_tax := home_value * u.property_tax_rate / 12
  let monthly_insurance_hoa := u.insurance_hoa_annual / 12
  let monthly_maintenance := home_value * u.maintenance_pct / 12
  let monthly_other := u.other_owner_costs_annual / 12
  let pmi_payment :=
    if truthy u.pmi_annual_pct && truthy u.pmi_threshold_pct then
      let current_loan_balance := remaining_balance_at_month d.loan_amount
        u.mortgage_rate u.mortgage_term_years month
      let current_ltv := if home_value > 0 then current_loan_balance / home_value else 0
      if current_ltv > u.pmi_threshold_pct.getD 0 then
        current_loan_balance * u.pmi_annual_pct.getD 0 / 12
      else 0
    else 0
  { property_tax := monthly_property_tax
    insurance_hoa := monthly_insurance_hoa
    maintenance := monthly_maintenance
    other_costs := monthly_other
    pmi := pmi_payment
    total_monthly_costs := monthly_property_tax + monthly_insurance_hoa +
      monthly_maintenance + monthly_other + pmi_payment }

lemma owner_costs_pmi (u : UserInputs) (d : DerivedInputs) (hv : ℚ) (m : ℤ) :
    (calculate_monthly_owner_costs u d hv m).pmi =
      if truthy u.pmi_annual_pct && truthy u.pmi_threshold_pct then
        if (if hv > 0 then
              remaining_balance_at_month d.loan_amount u.mortgage_rate
                u.mortgage_term_years m / hv
            else 0) > u.pmi_threshold_pct.getD 0 then
          remaining_balance_at_month d.loan_amount u.mortgage_rate
            u.mortgage_term_years m * u.pmi_annual_pct.getD 0 / 12
        else 0
      else 0 := rfl

/-- Claim C10: monthly PMI is 0 whenever either PMI field is `None` or 0
(Python truthiness silently disables PMI for a configured threshold of 0);
when both are positive, PMI at month `m` is non-zero iff the remaining
balance over the home value exceeds the threshold, and then equals that
balance times the annual PMI rate over 12. -/
theorem pmi_spec (u : UserInputs) (d : DerivedInputs) (hv : ℚ) (m : ℤ) :
    ((u.pmi_annual_pct = none ∨ u.pmi_annual_pct = some 0 ∨
      u.pmi_threshold_pct = none ∨ u.pmi_threshold_pct = some 0) →
      (calculate_monthly_owner_costs u d hv m).pmi = 0) ∧
    (∀ a th : ℚ, u.pmi_annual_pct = some a → u.pmi_threshold_pct = some th →
      0 < a → 0 < th →
      (((calculate_monthly_owner_costs u d hv m).pmi ≠ 0 ↔
        th < remaining_balance_at_month d.loan_amount u.mortgage_rate
              u.mortgage_term_years m / hv) ∧
       (th < remaining_balance_at_month d.loan_amount u.mortgage_rate
              u.mortgage_term_years m / hv →
        (calculate_monthly_owner_costs u d hv m).pmi
          = remaining_balance_at_month d.loan_amount u.mortgage_rate
              u.mortgage_term_years m * a / 12))) := by
  constructor
  · intro hdisj
    rw [owner_costs_pmi]
    rcases hdisj with h | h | h | h <;> simp [truthy, h]
  · intro a th ha hth ha0 hth0
    have hbal0 : 0 ≤ remaining_balance_at_month d.loan_amount u.mortgage_rate
        u.mortgage_term_years m := remaining_balance_nonneg _ _ _ _
    set bal := remaining_balance_at_month d.loan_amount u.mortgage_rate
        u.mortgage_term_years m with hbaldef
    have hguard : (truthy u.pmi_annual_pct && truthy u.pmi_threshold_pct) = true := by
      simp [truthy, ha, hth, ha0.ne', hth0.ne']
    rw [owner_costs_pmi, hguard, if_pos rfl] at *
    rcases lt_trichotomy hv 0 with hvneg | hvzero | hvpos
    · have hratio : bal / hv ≤ 0 := div_nonpos_of_nonneg_of_nonpos hbal0 (le_of_lt hvneg)
      have hltv : ¬ ((if hv > 0 then bal / hv else 0) > (u.pmi_threshold_pct.getD 0)) := by
        rw [if_neg (not_lt.mpr (le_of_lt hvneg)), hth]
        simp only [Option.getD_some]
        linarith
      rw [if_neg hltv]
      constructor
      · constructor
        · intro h0; exact absurd rfl h0
        · intro hlt; exfalso; linarith
      · intro hlt; exfalso; linarith
    · subst hvzero
      have hratio : bal / 0 = 0 := div_zero bal
      have hltv : ¬ ((if (0:ℚ) > 0 then bal / 0 else 0) > (u.pmi_threshold_pct.getD 0)) := by
        rw [if_neg (lt_irrefl 0), hth]
        simp only [Option.getD_some]
        linarith
      rw [if_neg hltv]
      constructor
      · constructor
        · intro h0; exact absurd rfl h0
        · intro hlt; rw [hratio] at hlt; exfalso; linarith
      · intro hlt; rw [hratio] at hlt; exfalso; linarith
    · have hif : (if hv > 0 then bal / hv else 0) = bal / hv := if_pos hvpos
      rw [hif, hth, ha]
      simp only [Option.getD_some]
      by_cases hcond : bal / hv > th
      · rw [if_pos hcond]
        have hbalpos : 0 < bal := by
          have : 0 < bal / hv := lt_trans hth0 hcond
          by_contra hc
          push_neg at hc
          have : bal / hv ≤ 0 := div_nonpos_of_nonpos_of_nonneg hc (le_of_lt hvpos)
          linarith
        constructor
        · constructor
          · intro _; exact hcond
          · intro _; positivity
        · intro _; rfl
      · rw [if_neg hcond]
        constructor
        · constructor
          · intro h0; exact absurd rfl h0
          · intro hlt; exact absurd hlt hcond
        · intro hlt; exact absurd hlt hcond

/-- Concrete inputs with a configured PMI rate of 0 (truthiness-falsy). -/
def uC10 : UserInputs where
  income_you := 60000
  income_spouse := 0
  income_growth := 3/100
  filing_status := "single"
  location := "NYC, NY"
  purchase_price := 125000
  down_payment_pct := 1/5
  closing_costs_buy := 0
  mortgage_rate := 3/25
  mortgage_term_years := 1
  points_pct := none
  property_tax_rate := 0
  insurance_hoa_annual := 0
  maintenance_pct := 0
  other_owner_costs_annual := 0
  annual_appreciation := 0
  selling_cost_pct := 3/50
  rent_today_monthly := 2000
  rent_growth_pct := 3/100
  other_renter_costs_monthly := 0
  alt_return_annual := 7/100
  inflation_discount_annual := 3/100
  horizon_years := 2
  pmi_threshold_pct := some (1/5)
  pmi_annual_pct := some 0
  refinance_enabled := false
  expected_refi_rate := none

/-- Witness for `pmi_spec`: a PMI rate configured as `0` disables PMI. -/
theorem pmi_spec_witness :
    (uC10.pmi_annual_pct = none ∨ uC10.pmi_annual_pct = some 0 ∨
      uC10.pmi_threshold_pct = none ∨ uC10.pmi_threshold_pct = some 0) ∧
    (calculate_monthly_owner_costs uC10 (DerivedInputs.from_user_inputs uC10)
        100000 1).pmi = 0 :=
  ⟨Or.inr (Or.inl rfl),
    (pmi_spec uC10 (DerivedInputs.from_user_inputs uC10) 100000 1).1
      (Or.inr (Or.inl rfl))⟩

/-- One row of the rent cash-flow DataFrame
(`src/calc/rent_flow.py` lines 53-61). -/
structure RentRow where
  month : ℕ
  rent_payment : ℚ
  other_renter_costs : ℚ
  total_rent_outflow : ℚ
  monthly_surplus : ℚ
  portfolio_balance : ℚ
  cumulative_rent_outflow : ℚ
deriving Repr, DecidableEq, Inhabited

/-- The buy-outflow lookup of `calculate_rent_cash_flows`:
`buy_monthly_outflows.iloc[month-1] if month <= len(...) else 0`. -/
def buyLookup (buy : List ℚ) (month : ℕ) : ℚ :=
  if month ≤ buy.length then buy.getD (month - 1) 0 else 0

/-- The loop body of `calculate_rent_cash_flows`
(`src/calc/rent_flow.py` lines 34-61): `k` remaining months, current
month index, running portfolio balance. -/
def rentSteps (u : UserInputs) (d : DerivedInputs) (buy : List ℚ) :
    ℕ → ℕ → ℚ → List RentRow
  | 0, _, _ => []
  | k + 1, month, bal =>
    let current_rent := u.rent_today_monthly *
      (1 + d.monthly_rent_growth_rate) ^ (month - 1)
    let total_rent_outflow := current_rent + u.other_renter_costs_monthly
    let monthly_surplus := max 0 (buyLookup buy month - total_rent_outflow)
    let bal2 := bal * (1 + d.monthly_alt_return_rate) + monthly_surplus
    ⟨month, current_rent, u.other_renter_costs_monthly, total_rent_outflow,
      monthly_surplus, bal2, 0⟩ :: rentSteps u d buy k (month + 1) bal2

/-- The post-loop cumulative pass
(`df["cumulative_rent_outflow"] = df["total_rent_outflow"].cumsum()`). -/
def withCumRent : ℚ → List RentRow → List RentRow
  | _, [] => []
  | acc, row :: rest =>
    { row with cumulative_rent_outflow := acc + row.total_rent_outflow } ::
      withCumRent (acc + row.total_rent_outflow) rest

/-- `calculate_rent_cash_flows` (`src/calc/rent_flow.py` lines 11-68). -/
def calculate_rent_cash_flows (u : UserInputs) (d : DerivedInputs)
    (buy_monthly_outflows : List ℚ) : List RentRow :=
  withCumRent 0 (rentSteps u d buy_monthly_outflows d.horizon_months 1
    (d.down_payment_amount + u.closing_costs_buy))

lemma rentSteps_length (u : UserInputs) (d : DerivedInputs) (buy : List ℚ) :
    ∀ (k month : ℕ) (bal : ℚ), (rentSteps u d buy k month bal).length = k := by
  intro k
  induction k with
  | zero => intro month bal; rfl
  | succ n ih => intro month bal; simp [rentSteps, ih]

lemma rentSteps_get_surplus (u : UserInputs) (d : DerivedInputs) (buy : List ℚ) :
    ∀ (k i month : ℕ) (bal : ℚ) (h : i < (rentSteps u d buy k month bal).length),
      ((rentSteps u d buy k month bal).get ⟨i, h⟩).month = month + i ∧
      ((rentSteps u d buy k month bal).get ⟨i, h⟩).monthly_surplus
        = max 0 (buyLookup buy (month + i)
            - ((rentSteps u d buy k month bal).get ⟨i, h⟩).total_rent_outflow) := by
  intro k
  induction k with
  | zero => intro i month bal h; simp [rentSteps_length] at h
  | succ n ih =>
    intro i month bal h
    cases i with
    | zero => refine ⟨?_, ?_⟩ <;> simp [rentSteps]
    | succ j =>
      have h2 : j < (rentSteps u d buy n (month + 1)
          (bal * (1 + d.monthly_alt_return_rate)
            + max 0 (buyLookup buy month
                - (u.rent_today_monthly * (1 + d.monthly_rent_growth_rate) ^ (month - 1)
                  + u.other_renter_costs_monthly)))).length := by
        simp [rentSteps_length] at h ⊢; omega
      have hih := ih j (month + 1) _ h2
      constructor
      · rw [show month + (j + 1) = month + 1 + j by omega]
        simpa [rentSteps] using hih.1
      · rw [show month + (j + 1) = month + 1 + j by omega]
        simpa [rentSteps] using hih.2

lemma rentSteps_head_bal (u : UserInputs) (d : DerivedInputs) (buy : List ℚ) :
    ∀ (k month : ℕ) (bal : ℚ) (h : 0 < (rentSteps u d buy k month bal).length),
      ((rentSteps u d buy k month bal).get ⟨0, h⟩).portfolio_balance
        = bal * (1 + d.monthly_alt_return_rate)
          + ((rentSteps u d buy k month bal).get ⟨0, h⟩).monthly_surplus := by
  intro k
  cases k with
  | zero => intro month bal h; simp [rentSteps_length] at h
  | succ n => intro month bal h; simp [rentSteps]

lemma rentSteps_bal_rec (u : UserInputs) (d : DerivedInputs) (buy : List ℚ) :
    ∀ (k i month : ℕ) (bal : ℚ) (h1 : i < (rentSteps u d buy k month bal).length)
      (h2 : i + 1 < (rentSteps u d buy k month bal).length),
      ((rentSteps u d buy k month bal).get ⟨i + 1, h2⟩).portfolio_balance
        = ((rentSteps u d buy k month bal).get ⟨i, h1⟩).portfolio_balance
            * (1 + d.monthly_alt_return_rate)
          + ((rentSteps u d buy k month bal).get ⟨i + 1, h2⟩).monthly_surplus := by
  intro k
  induction k with
  | zero => intro i month bal h1 h2; simp [rentSteps_length] at h1
  | succ n ih =>
    intro i month bal h1 h2
    cases i with
    | zero =>
      have h3 : 0 < (rentSteps u d buy n (month + 1)
          (bal * (1 + d.monthly_alt_return_rate)
            + max 0 (buyLookup buy month
                - (u.rent_today_monthly * (1 + d.monthly_rent_growth_rate) ^ (month - 1)
                  + u.other_renter_costs_monthly)))).length := by
        simp [rentSteps_length] at h2 ⊢; omega
      have hhead := rentSteps_head_bal u d buy n (month + 1) _ h3
      simpa [rentSteps] using hhead
    | succ j =>
      have h1t : j < (rentSteps u d buy n (month + 1)
          (bal * (1 + d.monthly_alt_return_rate)
            + max 0 (buyLookup buy month
                - (u.rent_today_monthly * (1 + d.monthly_rent_growth_rate) ^ (month - 1)
                  + u.other_renter_costs_monthly)))).length := by
        simp [rentSteps_length] at h1 ⊢; omega
      have h2t : j + 1 < (rentSteps u d buy n (month + 1)
          (bal * (1 + d.monthly_alt_return_rate)
            + max 0 (buyLookup buy month
                - (u.rent_today_monthly * (1 + d.monthly_rent_growth_rate) ^ (month - 1)
                  + u.other_renter_costs_monthly)))).length := by
        simp [rentSteps_length] at h2 ⊢; omega
      have hih := ih j (month + 1) _ h1t h2t
      simpa [rentSteps] using hih

lemma withCumRent_length : ∀ (l : List RentRow) (acc : ℚ),
    (withCumRent acc l).length = l.length := by
  intro l
  induction l with
  | nil => intro acc; rfl
  | cons row rest ih => intro acc; simp [withCumRent, ih]

lemma withCumRent_get : ∀ (l : List RentRow) (acc : ℚ) (i : ℕ)
    (h : i < (withCumRent acc l).length) (h2 : i < l.length),
      ((withCumRent acc l).get ⟨i, h⟩).month = (l.get ⟨i, h2⟩).month ∧
      ((withCumRent acc l).get ⟨i, h⟩).rent_payment = (l.get ⟨i, h2⟩).rent_payment ∧
      ((withCumRent acc l).get ⟨i, h⟩).other_renter_costs
        = (l.get ⟨i, h2⟩).other_renter_costs ∧
      ((withCumRent acc l).get ⟨i, h⟩).total_rent_outflow
        = (l.get ⟨i, h2⟩).total_rent_outflow ∧
      ((withCumRent acc l).get ⟨i, h⟩).monthly_surplus
        = (l.get ⟨i, h2⟩).monthly_surplus ∧
      ((withCumRent acc l).get ⟨i, h⟩).portfolio_balance
        = (l.get ⟨i, h2⟩).portfolio_balance := by
  intro l
  induction l with
  | nil => intro acc i h h2; simp at h2
  | cons row rest ih =>
    intro acc i h h2
    cases i with
    | zero => refine ⟨?_, ?_, ?_, ?_, ?_, ?_⟩ <;> simp [withCumRent]
    | succ j =>
      have h2t : j < rest.length := by simpa using h2
      have ht : j < (withCumRent (acc + row.total_rent_outflow) rest).length := by
        rw [withCumRent_length]; exact h2t
      have hih := ih (acc + row.total_rent_outflow) j ht h2t
      refine ⟨?_, ?_, ?_, ?_, ?_, ?_⟩
      · simpa [withCumRent] using hih.1
      · simpa [withCumRent] using hih.2.1
      · simpa [withCumRent] using hih.2.2.1
      · simpa [withCumRent] using hih.2.2.2.1
      · simpa [withCumRent] using hih.2.2.2.2.1
      · simpa [withCumRent] using hih.2.2.2.2.2

/-- Claim C4: every row's invested surplus is
`max(0, buy_net_outflow[m] - total_rent_outflow[m])` (never negative), and
the portfolio balance follows
`balance[m] = balance[m-1] × (1 + monthly_alt_return) + surplus[m]`, seeded
at `down_payment_amount + closing_costs_buy` before month 1. -/
theorem rent_flow_spec (u : UserInputs) (d : DerivedInputs) (buy : List ℚ) :
    (calculate_rent_cash_flows u d buy).length = d.horizon_months ∧
    (∀ (i : ℕ) (h : i < (calculate_rent_cash_flows u d buy).length),
      ((calculate_rent_cash_flows u d buy).get ⟨i, h⟩).month = i + 1 ∧
      ((calculate_rent_cash_flows u d buy).get ⟨i, h⟩).monthly_surplus
        = max 0 (buyLookup buy (i + 1)
            - ((calculate_rent_cash_flows u d buy).get ⟨i, h⟩).total_rent_outflow) ∧
      0 ≤ ((calculate_rent_cash_flows u d buy).get ⟨i, h⟩).monthly_surplus) ∧
    (∀ h : 0 < (calculate_rent_cash_flows u d buy).length,
      ((calculate_rent_cash_flows u d buy).get ⟨0, h⟩).portfolio_balance
        = (d.down_payment_amount + u.closing_costs_buy)
            * (1 + d.monthly_alt_return_rate)
          + ((calculate_rent_cash_flows u d buy).get ⟨0, h⟩).monthly_surplus) ∧
    (∀ (i : ℕ) (h1 : i < (calculate_rent_cash_flows u d buy).length)
        (h2 : i + 1 < (calculate_rent_cash_flows u d buy).length),
      ((calculate_rent_cash_flows u d buy).get ⟨i + 1, h2⟩).portfolio_balance
        = ((calculate_rent_cash_flows u d buy).get ⟨i, h1⟩).portfolio_balance
            * (1 + d.monthly_alt_return_rate)
          + ((calculate_rent_cash_flows u d buy).get ⟨i + 1, h2⟩).monthly_surplus) := by
  have hlen : (calculate_rent_cash_flows u d buy).length = d.horizon_months := by
    rw [calculate_rent_cash_flows, withCumRent_length, rentSteps_length]
  refine ⟨hlen, ?_, ?_, ?_⟩
  · intro i h
    simp only [calculate_rent_cash_flows] at h ⊢
    have hL : i < (rentSteps u d buy d.horizon_months 1
        (d.down_payment_amount + u.closing_costs_buy)).length := by
      rwa [withCumRent_length] at h
    have hw := withCumRent_get _ 0 i h hL
    have hs := rentSteps_get_surplus u d buy d.horizon_months i 1
      (d.down_payment_amount + u.closing_costs_buy) hL
    refine ⟨?_, ?_, ?_⟩
    · rw [hw.1, hs.1]; omega
    · rw [hw.2.2.2.2.1, hw.2.2.2.1, hs.2, show 1 + i = i + 1 by omega]
    · rw [hw.2.2.2.2.1, hs.2]
      exact le_max_left _ _
  · intro h
    simp only [calculate_rent_cash_flows] at h ⊢
    have hL : 0 < (rentSteps u d buy d.horizon_months 1
        (d.down_payment_amount + u.closing_costs_buy)).length := by
      rwa [withCumRent_length] at h
    have hw := withCumRent_get _ 0 0 h hL
    rw [hw.2.2.2.2.2, hw.2.2.2.2.1]
    exact rentSteps_head_bal u d buy d.horizon_months 1 _ hL
  · intro i h1 h2
    simp only [calculate_rent_cash_flows] at h1 h2 ⊢
    have hL1 : i < (rentSteps u d buy d.horizon_months 1
        (d.down_payment_amount + u.closing_costs_buy)).length := by
      rwa [withCumRent_length] at h1
    have hL2 : i + 1 < (rentSteps u d buy d.horizon_months 1
        (d.down_payment_amount + u.closing_costs_buy)).length := by
      rwa [withCumRent_length] at h2
    have hw1 := withCumRent_get _ 0 i h1 hL1
    have hw2 := withCumRent_get _ 0 (i + 1) h2 hL2
    rw [hw2.2.2.2.2.2, hw2.2.2.2.2.1, hw1.2.2.2.2.2]
    exact rentSteps_bal_rec u d buy d.horizon_months i 1 _ hL1 hL2

/-- A one-month `DerivedInputs` used to witness the rent-flow claim. -/
def dC4 : DerivedInputs := ⟨100000, 1/100, 1/400, 1/200, 1/400, 0, 1, 25000⟩

/-- Witness for `rent_flow_spec`: the single-row concrete run satisfies the
seeded balance recurrence. -/
theorem rent_flow_spec_witness :
    (calculate_rent_cash_flows uC10 dC4 [5000]).length = 1 ∧
    ((calculate_rent_cash_flows uC10 dC4 [5000]).get
        ⟨0, (by decide : 0 < (calculate_rent_cash_flows uC10 dC4 [5000]).length)⟩).portfolio_balance
      = (dC4.down_payment_amount + uC10.closing_costs_buy)
          * (1 + dC4.monthly_alt_return_rate)
        + ((calculate_rent_cash_flows uC10 dC4 [5000]).get
            ⟨0, (by decide : 0 < (calculate_rent_cash_flows uC10 dC4 [5000]).length)⟩).monthly_surplus :=
  ⟨(rent_flow_spec uC10 dC4 [5000]).1,
    (rent_flow_spec uC10 dC4 [5000]).2.2.1 _⟩

/-- One row of the buy cash-flow DataFrame
(`src/calc/buy_flow.py` lines 185-203). -/
structure BuyRow where
  month : ℕ
  home_value : ℚ
  mortgage_interest : ℚ
  mortgage_principal : ℚ
  mortgage_payment : ℚ
  property_tax : ℚ
  insurance_hoa : ℚ
  maintenance : ℚ
  other_costs : ℚ
  pmi : ℚ
  total_other_costs : ℚ
  tax_shield : ℚ
  gross_monthly_outflow : ℚ
  net_monthly_outflow : ℚ
  true_monthly_cost : ℚ
  cumulative_net_outflow : ℚ
  cumulative_true_cost : ℚ
deriving Repr, DecidableEq, Inhabited

/-- The one-time points deduction (`src/calc/buy_flow.py` lines 141-146):
`if user_inputs.points_pct:` is Python truthiness, so `None` and `0.0`
both disable it. -/
def pointsAnnualDeduction (u : UserInputs) (d : DerivedInputs) : ℚ :=
  match u.points_pct with
  | none => 0
  | some p =>
    if p = 0 then 0
    else d.loan_amount * p / ((min u.mortgage_term_years 5 : ℕ) : ℚ)

/-- The schedule fallback (`src/calc/buy_flow.py` lines 128-136): an empty
amortization schedule (100% down payment) is replaced by a synthesized
all-zero schedule with one row per horizon month.  Only the interest and
principal columns of the synthesized frame are ever read downstream; its
remaining fields are 0 here. -/
def effSchedule (u : UserInputs) (d : DerivedInputs) : List AmortRow :=
  let amort := amortize d.loan_amount u.mortgage_rate u.mortgage_term_years
  if amort.isEmpty then
    (List.range' 1 d.horizon_months).map (fun m => (⟨m, 0, 0, 0, 0, 0⟩ : AmortRow))
  else amort

/-- The loop body of `calculate_buy_cash_flows`
(`src/calc/buy_flow.py` lines 150-203), carrying the running cumulative
net outflow and cumulative true cost (the post-loop `cumsum` columns,
with the down-payment seed added to the true-cost column). -/
def buySteps (u : UserInputs) (d : DerivedInputs) (tp : TaxParams)
    (sched : List AmortRow) (points_annual : ℚ) :
    ℕ → ℕ → ℚ → ℚ → List BuyRow
  | 0, _, _, _ => []
  | k + 1, month, cumNet, cumTrue =>
    let home_value := u.purchase_price * (1 + d.monthly_appreciation_rate) ^ (month - 1)
    let interest_payment :=
      if month ≤ sched.length then (sched.getD (month - 1) default).interest else 0
    let principal_payment :=
      if month ≤ sched.length then (sched.getD (month - 1) default).principal else 0
    let mortgage_payment := interest_payment + principal_payment
    let mc := calculate_monthly_owner_costs u d home_value (month : ℤ)
    let tax_shield := calculate_tax_shield interest_payment mc.property_tax tp
      (points_annual / 12)
    let gross := mortgage_payment + mc.total_monthly_costs
    let net := gross - tax_shield
    let trueCost := interest_payment + mc.total_monthly_costs - tax_shield
    let cumNet2 := cumNet + net
    let cumTrue2 := cumTrue + trueCost
    ⟨month, home_value, interest_payment, principal_payment, mortgage_payment,
      mc.property_tax, mc.insurance_hoa, mc.maintenance, mc.other_costs, mc.pmi,
      mc.total_monthly_costs, tax_shield, gross, net, trueCost, cumNet2,
      d.down_payment_amount + u.closing_costs_buy + cumTrue2⟩ ::
      buySteps u d tp sched points_annual k (month + 1) cumNet2 cumTrue2

/-- `calculate_buy_cash_flows` (`src/calc/buy_flow.py` lines 105-214). -/
def calculate_buy_cash_flows (u : UserInputs) (d : DerivedInputs)
    (tp : TaxParams) : List BuyRow :=
  buySteps u d tp (effSchedule u d) (pointsAnnualDeduction u d) d.horizon_months 1 0 0

lemma buySteps_length (u : UserInputs) (d : DerivedInputs) (tp : TaxParams)
    (sched : List AmortRow) (pa : ℚ) :
    ∀ (k month : ℕ) (cn ct : ℚ),
      (buySteps u d tp sched pa k month cn ct).length = k := by
  intro k
  induction k with
  | zero => intro month cn ct; rfl
  | succ n ih => intro month cn ct; simp [buySteps, ih]

lemma buySteps_get (u : UserInputs) (d : DerivedInputs) (tp : TaxParams)
    (sched : List AmortRow) (pa : ℚ) :
    ∀ (k i month : ℕ) (cn ct : ℚ)
      (h : i < (buySteps u d tp sched pa k month cn ct).length),
      ((buySteps u d tp sched pa k month cn ct).get ⟨i, h⟩).month = month + i ∧
      ((buySteps u d tp sched pa k month cn ct).get ⟨i, h⟩).home_value
        = u.purchase_price * (1 + d.monthly_appreciation_rate) ^ (month + i - 1) ∧
      ((buySteps u d tp sched pa k month cn ct).get ⟨i, h⟩).mortgage_interest
        = (if month + i ≤ sched.length then (sched.getD (month + i - 1) default).interest
           else 0) ∧
      ((buySteps u d tp sched pa k month cn ct).get ⟨i, h⟩).mortgage_principal
        = (if month + i ≤ sched.length then (sched.getD (month + i - 1) default).principal
           else 0) ∧
      ((buySteps u d tp sched pa k month cn ct).get ⟨i, h⟩).property_tax
        = ((buySteps u d tp sched pa k month cn ct).get ⟨i, h⟩).home_value
            * u.property_tax_rate / 12 ∧
      ((buySteps u d tp sched pa k month cn ct).get ⟨i, h⟩).insurance_hoa
        = u.insurance_hoa_annual / 12 ∧
      ((buySteps u d tp sched pa k month cn ct).get ⟨i, h⟩).maintenance
        = ((buySteps u d tp sched pa k month cn ct).get ⟨i, h⟩).home_value
            * u.maintenance_pct / 12 ∧
      ((buySteps u d tp sched pa k month cn ct).get ⟨i, h⟩).other_costs
        = u.other_owner_costs_annual / 12 ∧
      ((buySteps u d tp sched pa k month cn ct).get ⟨i, h⟩).tax_shield
        = calculate_tax_shield
            ((buySteps u d tp sched pa k month cn ct).get ⟨i, h⟩).mortgage_interest
            ((buySteps u d tp sched pa k month cn ct).get ⟨i, h⟩).property_tax tp
            (pa / 12) := by
  intro k
  induction k with
  | zero => intro i month cn ct h; simp [buySteps_length] at h
  | succ n ih =>
    intro i month cn ct h
    cases i with
    | zero =>
      refine ⟨?_, ?_, ?_, ?_, ?_, ?_, ?_, ?_, ?_⟩ <;>
        simp [buySteps, calculate_monthly_owner_costs]
    | succ j =>
      have h2 : j < (buySteps u d tp sched pa n (month + 1)
          (cn + (((if month ≤ sched.length then (sched.getD (month - 1) default).interest else 0)
              + (if month ≤ sched.length then (sched.getD (month - 1) default).principal else 0))
            + (calculate_monthly_owner_costs u d
                (u.purchase_price * (1 + d.monthly_appreciation_rate) ^ (month - 1))
                (month : ℤ)).total_monthly_costs
            - calculate_tax_shield
                (if month ≤ sched.length then (sched.getD (month - 1) default).interest else 0)
                (calculate_monthly_owner_costs u d
                  (u.purchase_price * (1 + d.monthly_appreciation_rate) ^ (month - 1))
                  (month : ℤ)).property_tax tp (pa / 12)))
          (ct + ((if month ≤ sched.length then (sched.getD (month - 1) default).interest else 0)
            + (calculate_monthly_owner_costs u d
                (u.purchase_price * (1 + d.monthly_appreciation_rate) ^ (month - 1))
                (month : ℤ)).total_monthly_costs
            - calculate_tax_shield
                (if month ≤ sched.length then (sched.getD (month - 1) default).interest else 0)
                (calculate_monthly_owner_costs u d
                  (u.purchase_price * (1 + d.monthly_appreciation_rate) ^ (month - 1))
                  (month : ℤ)).property_tax tp (pa / 12)))).length := by
        simp [buySteps_length] at h ⊢; omega
      have hih := ih j (month + 1) _ _ h2
      have hmonth : month + (j + 1) = month + 1 + j := by omega
      refine ⟨?_, ?_, ?_, ?_, ?_, ?_, ?_, ?_, ?_⟩
      · rw [hmonth]; simpa [buySteps] using hih.1
      · rw [hmonth]; simpa [buySteps] using hih.2.1
      · rw [hmonth]; simpa [buySteps] using hih.2.2.1
      · rw [hmonth]; simpa [buySteps] using hih.2.2.2.1
      · simpa [buySteps] using hih.2.2.2.2.1
      · simpa [buySteps] using hih.2.2.2.2.2.1
      · simpa [buySteps] using hih.2.2.2.2.2.2.1
      · simpa [buySteps] using hih.2.2.2.2.2.2.2.1
      · simpa [buySteps] using hih.2.2.2.2.2.2.2.2

lemma getD_field_zero (f : AmortRow → ℚ) (l : List AmortRow) (d0 : AmortRow) :
    ∀ j : ℕ, (∀ row ∈ l, f row = 0) → f d0 = 0 → f (l.getD j d0) = 0 := by
  induction l with
  | nil => intro j _ hd; simpa [List.getD] using hd
  | cons a t ih =>
    intro j hl hd
    cases j with
    | zero => rw [List.getD_cons_zero]; exact hl a (List.mem_cons_self a t)
    | succ n => rw [List.getD_cons_succ]; exact ih n (fun row hr => hl row (List.mem_cons_of_mem a hr)) hd

lemma synth_rows_zero (n : ℕ) :
    ∀ row ∈ (List.range' 1 n).map (fun m => (⟨m, 0, 0, 0, 0, 0⟩ : AmortRow)),
      row.interest = 0 ∧ row.principal = 0 := by
  intro row hrow
  obtain ⟨m, _, hrow2⟩ := List.mem_map.mp hrow
  rw [← hrow2]
  exact ⟨rfl, rfl⟩

/-- Claim C5: the buy projector always emits exactly `horizon_months` rows;
with a zero loan the synthesized schedule makes every row's interest and
principal zero (so total interest paid is 0); with a loan shorter than the
horizon, interest and principal are zero beyond `term×12` months while the
recurring owner costs are still computed for those months. -/
theorem buy_flow_spec (u : UserInputs) (d : DerivedInputs) (tp : TaxParams) :
    (calculate_buy_cash_flows u d tp).length = d.horizon_months ∧
    (d.loan_amount ≤ 0 →
      ∀ (i : ℕ) (h : i < (calculate_buy_cash_flows u d tp).length),
        ((calculate_buy_cash_flows u d tp).get ⟨i, h⟩).mortgage_interest = 0 ∧
        ((calculate_buy_cash_flows u d tp).get ⟨i, h⟩).mortgage_principal = 0) ∧
    (d.loan_amount ≤ 0 →
      ((calculate_buy_cash_flows u d tp).map BuyRow.mortgage_interest).sum = 0) ∧
    (0 < d.loan_amount →
      ∀ (i : ℕ) (h : i < (calculate_buy_cash_flows u d tp).length),
        u.mortgage_term_years * 12 < i + 1 →
        ((calculate_buy_cash_flows u d tp).get ⟨i, h⟩).mortgage_interest = 0 ∧
        ((calculate_buy_cash_flows u d tp).get ⟨i, h⟩).mortgage_principal = 0) ∧
    (∀ (i : ℕ) (h : i < (calculate_buy_cash_flows u d tp).length),
      ((calculate_buy_cash_flows u d tp).get ⟨i, h⟩).month = i + 1 ∧
      ((calculate_buy_cash_flows u d tp).get ⟨i, h⟩).home_value
        = u.purchase_price * (1 + d.monthly_appreciation_rate) ^ i ∧
      ((calculate_buy_cash_flows u d tp).get ⟨i, h⟩).property_tax
        = ((calculate_buy_cash_flows u d tp).get ⟨i, h⟩).home_value
            * u.property_tax_rate / 12 ∧
      ((calculate_buy_cash_flows u d tp).get ⟨i, h⟩).insurance_hoa
        = u.insurance_hoa_annual / 12 ∧
      ((calculate_buy_cash_flows u d tp).get ⟨i, h⟩).maintenance
        = ((calculate_buy_cash_flows u d tp).get ⟨i, h⟩).home_value
            * u.maintenance_pct / 12 ∧
      ((calculate_buy_cash_flows u d tp).get ⟨i, h⟩).other_costs
        = u.other_owner_costs_annual / 12) := by
  have hlen : (calculate_buy_cash_flows u d tp).length = d.horizon_months := by
    rw [calculate_buy_cash_flows, buySteps_length]
  have hzero : d.loan_amount ≤ 0 →
      ∀ (i : ℕ) (h : i < (calculate_buy_cash_flows u d tp).length),
        ((calculate_buy_cash_flows u d tp).get ⟨i, h⟩).mortgage_interest = 0 ∧
        ((calculate_buy_cash_flows u d tp).get ⟨i, h⟩).mortgage_principal = 0 := by
    intro hloan i h
    simp only [calculate_buy_cash_flows] at h ⊢
    have hg := buySteps_get u d tp (effSchedule u d) (pointsAnnualDeduction u d)
      d.horizon_months i 1 0 0 h
    have hamortE : amortize d.loan_amount u.mortgage_rate u.mortgage_term_years = [] := by
      rw [amortize, if_pos hloan]
    have hsched : effSchedule u d
        = (List.range' 1 d.horizon_months).map (fun m => (⟨m, 0, 0, 0, 0, 0⟩ : AmortRow)) := by
      simp [effSchedule, hamortE]
    constructor
    · rw [hg.2.2.1, hsched]
      split
      · exact getD_field_zero AmortRow.interest _ _ _
          (fun row hr => (synth_rows_zero d.horizon_months row hr).1) rfl
      · rfl
    · rw [hg.2.2.2.1, hsched]
      split
      · exact getD_field_zero AmortRow.principal _ _ _
          (fun row hr => (synth_rows_zero d.horizon_months row hr).2) rfl
      · rfl
  refine ⟨hlen, hzero, ?_, ?_, ?_⟩
  · intro hloan
    apply List.sum_eq_zero
    intro x hx
    obtain ⟨row, hrow, hfx⟩ := List.mem_map.mp hx
    obtain ⟨⟨iv, hiv⟩, hget⟩ := List.mem_iff_get.mp hrow
    rw [← hfx, ← hget]
    exact (hzero hloan iv hiv).1
  · intro hloan i h hterm
    simp only [calculate_buy_cash_flows] at h ⊢
    have hg := buySteps_get u d tp (effSchedule u d) (pointsAnnualDeduction u d)
      d.horizon_months i 1 0 0 h
    by_cases hE : amortize d.loan_amount u.mortgage_rate u.mortgage_term_years = []
    · have hsched : effSchedule u d
          = (List.range' 1 d.horizon_months).map (fun m => (⟨m, 0, 0, 0, 0, 0⟩ : AmortRow)) := by
        simp [effSchedule, hE]
      constructor
      · rw [hg.2.2.1, hsched]
        split
        · exact getD_field_zero AmortRow.interest _ _ _
            (fun row hr => (synth_rows_zero d.horizon_months row hr).1) rfl
        · rfl
      · rw [hg.2.2.2.1, hsched]
        split
        · exact getD_field_zero AmortRow.principal _ _ _
            (fun row hr => (synth_rows_zero d.horizon_months row hr).2) rfl
        · rfl
    · have hsched : effSchedule u d
          = amortize d.loan_amount u.mortgage_rate u.mortgage_term_years := by
        simp [effSchedule, hE]
      have hslen : (effSchedule u d).length = u.mortgage_term_years * 12 := by
        rw [hsched, amortize_length _ _ _ hloan]
      constructor
      · rw [hg.2.2.1, if_neg (by omega)]
      · rw [hg.2.2.2.1, if_neg (by omega)]
  · intro i h
    simp only [calculate_buy_cash_flows] at h ⊢
    have hg := buySteps_get u d tp (effSchedule u d) (pointsAnnualDeduction u d)
      d.horizon_months i 1 0 0 h
    have hexp : 1 + i - 1 = i := by omega
    refine ⟨?_, ?_, ?_, ?_, ?_, ?_⟩
    · rw [hg.1]; omega
    · rw [hg.2.1, hexp]
    · exact hg.2.2.2.2.1
    · exact hg.2.2.2.2.2.1
    · exact hg.2.2.2.2.2.2.1
    · exact hg.2.2.2.2.2.2.2.1

/-- Concrete tax parameters used by the buy-flow witnesses. -/
def tpC7 : TaxParams := ⟨3/10, 0, 10000, 1000, "NYC, NY", "single"⟩

/-- Concrete cash-purchase inputs (100% down payment). -/
def uC5 : UserInputs where
  income_you := 60000
  income_spouse := 0
  income_growth := 3/100
  filing_status := "single"
  location := "NYC, NY"
  purchase_price := 125000
  down_payment_pct := 1
  closing_costs_buy := 0
  mortgage_rate := 3/25
  mortgage_term_years := 30
  points_pct := none
  property_tax_rate := 0
  insurance_hoa_annual := 0
  maintenance_pct := 0
  other_owner_costs_annual := 0
  annual_appreciation := 0
  selling_cost_pct := 3/50
  rent_today_monthly := 2000
  rent_growth_pct := 3/100
  other_renter_costs_monthly := 0
  alt_return_annual := 7/100
  inflation_discount_annual := 3/100
  horizon_years := 1
  pmi_threshold_pct := some (1/5)
  pmi_annual_pct := some 0
  refinance_enabled := false
  expected_refi_rate := none

/-- Witness for `buy_flow_spec`: a cash purchase yields zero total
mortgage interest and still a full-length table. -/
theorem buy_flow_spec_witness :
    (DerivedInputs.from_user_inputs uC5).loan_amount ≤ 0 ∧
    ((calculate_buy_cash_flows uC5 (DerivedInputs.from_user_inputs uC5) tpC7).map
        BuyRow.mortgage_interest).sum = 0 ∧
    (calculate_buy_cash_flows uC5 (DerivedInputs.from_user_inputs uC5) tpC7).length
      = (DerivedInputs.from_user_inputs uC5).horizon_months :=
  ⟨by norm_num [DerivedInputs.from_user_inputs, uC5],
    (buy_flow_spec uC5 (DerivedInputs.from_user_inputs uC5) tpC7).2.2.1
      (by norm_num [DerivedInputs.from_user_inputs, uC5]),
    (buy_flow_spec uC5 (DerivedInputs.from_user_inputs uC5) tpC7).1⟩

/-- Concrete inputs with configured points, a 1-year loan and a 2-year
horizon, so months 13..24 lie beyond both the loan term and the
`min(term, 5)`-year points amortization window. -/
def uC7 : UserInputs where
  income_you := 60000
  income_spouse := 0
  income_growth := 3/100
  filing_status := "single"
  location := "NYC, NY"
  purchase_price := 125000
  down_payment_pct := 1/5
  closing_costs_buy := 0
  mortgage_rate := 3/25
  mortgage_term_years := 1
  points_pct := some (1/5)
  property_tax_rate := 0
  insurance_hoa_annual := 0
  maintenance_pct := 0
  other_owner_costs_annual := 0
  annual_appreciation := 0
  selling_cost_pct := 3/50
  rent_today_monthly := 2000
  rent_growth_pct := 3/100
  other_renter_costs_monthly := 0
  alt_return_annual := 7/100
  inflation_discount_annual := 3/100
  horizon_years := 2
  pmi_threshold_pct := some (1/5)
  pmi_annual_pct := some 0
  refinance_enabled := false
  expected_refi_rate := none

lemma getD_map_buy (f : BuyRow → ℚ) (l : List BuyRow) :
    ∀ (j : ℕ) (h : j < l.length), (l.map f).getD j 0 = f (l.get ⟨j, h⟩) := by
  induction l with
  | nil => intro j h; simp at h
  | cons a t ih =>
    intro j h
    cases j with
    | zero => rfl
    | succ n =>
      rw [List.map_cons, List.getD_cons_succ]
      exact ih n (by simpa using h)

/-- Claim C7 as stated is refuted here: month 13 lies strictly beyond the
`min(term,5)×12 = 12`-month points amortization window, yet its tax shield
is `50/3 ≠ 0` even though both mortgage interest and property tax are zero
that month — whereas a zero points contribution would give
`calculate_tax_shield 0 0 tpC7 0 = 0`.  The source applies the points
add-on for every horizon month. -/
theorem points_window_counterexample :
    min uC7.mortgage_term_years 5 * 12 < 13 ∧
    ((calculate_buy_cash_flows uC7 (DerivedInputs.from_user_inputs uC7) tpC7).map
        BuyRow.tax_shield).getD 12 0 = 50/3 ∧
    calculate_tax_shield 0 0 tpC7 0 = 0 ∧ (50/3 : ℚ) ≠ 0 := by
  have h13 : 12 < (calculate_buy_cash_flows uC7 (DerivedInputs.from_user_inputs uC7)
      tpC7).length := by
    rw [calculate_buy_cash_flows, buySteps_length]
    norm_num [DerivedInputs.from_user_inputs, uC7]
  refine ⟨by norm_num [uC7], ?_, ?_, by norm_num⟩
  · simp only [calculate_buy_cash_flows] at h13 ⊢
    rw [getD_map_buy _ _ 12 h13]
    have hg := buySteps_get uC7 (DerivedInputs.from_user_inputs uC7) tpC7
      (effSchedule uC7 (DerivedInputs.from_user_inputs uC7))
      (pointsAnnualDeduction uC7 (DerivedInputs.from_user_inputs uC7))
      (DerivedInputs.from_user_inputs uC7).horizon_months 12 1 0 0 h13
    have hloan : (0 : ℚ) < (DerivedInputs.from_user_inputs uC7).loan_amount := by
      norm_num [DerivedInputs.from_user_inputs, uC7]
    have hE : amortize (DerivedInputs.from_user_inputs uC7).loan_amount
        uC7.mortgage_rate uC7.mortgage_term_years ≠ [] := by
      intro hc
      have hlen2 := amortize_length (DerivedInputs.from_user_inputs uC7).loan_amount
        uC7.mortgage_rate uC7.mortgage_term_years hloan
      rw [hc] at hlen2
      norm_num [uC7] at hlen2
    have hsched : effSchedule uC7 (DerivedInputs.from_user_inputs uC7)
        = amortize (DerivedInputs.from_user_inputs uC7).loan_amount
            uC7.mortgage_rate uC7.mortgage_term_years := by
      simp [effSchedule, hE]
    have hslen : (effSchedule uC7 (DerivedInputs.from_user_inputs uC7)).length = 12 := by
      rw [hsched, amortize_length _ _ _ hloan]
      norm_num [uC7]
    rw [hg.2.2.2.2.2.2.2.2, hg.2.2.1, hg.2.2.2.2.1, hg.2.1, hslen]
    norm_num [uC7, DerivedInputs.from_user_inputs, pointsAnnualDeduction,
      calculate_tax_shield, total_itemizable, tpC7]
  · norm_num [calculate_tax_shield, total_itemizable, tpC7]

/-- Claim C7 (amended): with configured non-zero points, the annual points
deduction is `loan × points_pct / min(term_years, 5)` and one twelfth of it
is passed to the tax-shield computation as a constant add-on for EVERY
month of the horizon (not only inside the amortization window). -/
theorem points_always_on (u : UserInputs) (d : DerivedInputs) (tp : TaxParams)
    (p : ℚ) (hp : u.points_pct = some p) (hp0 : p ≠ 0) :
    pointsAnnualDeduction u d
        = d.loan_amount * p / ((min u.mortgage_term_years 5 : ℕ) : ℚ) ∧
    ∀ (i : ℕ) (h : i < (calculate_buy_cash_flows u d tp).length),
      ((calculate_buy_cash_flows u d tp).get ⟨i, h⟩).tax_shield
        = calculate_tax_shield
            ((calculate_buy_cash_flows u d tp).get ⟨i, h⟩).mortgage_interest
            ((calculate_buy_cash_flows u d tp).get ⟨i, h⟩).property_tax tp
            (d.loan_amount * p / ((min u.mortgage_term_years 5 : ℕ) : ℚ) / 12) := by
  have hpa : pointsAnnualDeduction u d
      = d.loan_amount * p / ((min u.mortgage_term_years 5 : ℕ) : ℚ) := by
    simp [pointsAnnualDeduction, hp, hp0]
  refine ⟨hpa, ?_⟩
  intro i h
  simp only [calculate_buy_cash_flows] at h ⊢
  have hg := buySteps_get u d tp (effSchedule u d) (pointsAnnualDeduction u d)
    d.horizon_months i 1 0 0 h
  rw [hg.2.2.2.2.2.2.2.2,
    show pointsAnnualDeduction u d / 12
        = d.loan_amount * p / ((min u.mortgage_term_years 5 : ℕ) : ℚ) / 12 from by rw [hpa]]

/-- Witness for `points_always_on` at the concrete inputs of the
counterexample. -/
theorem points_always_on_witness :
    uC7.points_pct = some (1/5) ∧ ((1:ℚ)/5) ≠ 0 ∧
    pointsAnnualDeduction uC7 (DerivedInputs.from_user_inputs uC7)
      = (DerivedInputs.from_user_inputs uC7).loan_amount * (1/5)
          / ((min uC7.mortgage_term_years 5 : ℕ) : ℚ) :=
  ⟨rfl, by norm_num,
    (points_always_on uC7 (DerivedInputs.from_user_inputs uC7) tpC7 (1/5) rfl
      (by norm_num)).1⟩

/-- Outcome of the `numpy_financial.irr` root-finder call inside
`calculate_irr`: it may raise (caught as
`ValueError`/`OverflowError`/`RuntimeError`), return `None`, `NaN`,
an infinity, or a finite monthly rate.  The numerical routine itself is
abstracted as this oracle; the claim concerns only the wrapper. -/
inductive IrrOutcome where
  | raises : IrrOutcome
  | missing : IrrOutcome
  | nanResult : IrrOutcome
  | infResult : IrrOutcome
  | value : ℚ → IrrOutcome
deriving Repr, DecidableEq

/-- `calculate_irr` (`src/calc/metrics.py` lines 37-65). -/
def calculate_irr (outcome : IrrOutcome) : Option ℚ :=
  match outcome with
  | .raises => none
  | .missing => none
  | .nanResult => none
  | .infResult => none
  | .value monthly_irr =>
    let annual_irr := (1 + monthly_irr) ^ 12 - 1
    if annual_irr < -(99/100) ∨ annual_irr > 10 then none
    else some annual_irr

/-- Claim C6: `calculate_irr` returns `None` on every root-finder failure
(raise, `None`, `NaN`, infinity) and whenever the annualized result falls
outside the sanity band `[-0.99, 10]`; any number it does return lies
inside that band. -/
theorem calculate_irr_spec (o : IrrOutcome) :
    ((o = .raises ∨ o = .missing ∨ o = .nanResult ∨ o = .infResult) →
        calculate_irr o = none) ∧
    (∀ m : ℚ, o = .value m →
        ((1 + m) ^ 12 - 1 < -(99/100) ∨ (1 + m) ^ 12 - 1 > 10) →
        calculate_irr o = none) ∧
    (∀ a : ℚ, calculate_irr o = some a → -(99/100) ≤ a ∧ a ≤ 10) := by
  refine ⟨?_, ?_, ?_⟩
  · intro hfail
    rcases hfail with h | h | h | h <;> rw [h] <;> rfl
  · intro m hm hband
    rw [hm, calculate_irr]
    simp only [if_pos hband]
  · intro a ha
    cases o with
    | raises => exact absurd ha (by simp [calculate_irr])
    | missing => exact absurd ha (by simp [calculate_irr])
    | nanResult => exact absurd ha (by simp [calculate_irr])
    | infResult => exact absurd ha (by simp [calculate_irr])
    | value m =>
      rw [calculate_irr] at ha
      by_cases hband : (1 + m) ^ 12 - 1 < -(99/100) ∨ (1 + m) ^ 12 - 1 > 10
      · rw [if_pos hband] at ha; exact absurd ha (by simp)
      · rw [if_neg hband] at ha
        push_neg at hband
        have haeq : a = (1 + m) ^ 12 - 1 := (Option.some_inj.mp ha).symm
        rw [haeq]
        exact ⟨hband.1, hband.2⟩

/-- Witness for `calculate_irr_spec` at the oracle outcome `value 0`. -/
theorem calculate_irr_spec_witness :
    calculate_irr (IrrOutcome.value 0) = some 0 ∧
    (-(99/100 : ℚ) ≤ 0 ∧ (0 : ℚ) ≤ 10) := by
  have hc : calculate_irr (IrrOutcome.value 0) = some 0 := by
    norm_num [calculate_irr]
  exact ⟨hc, (calculate_irr_spec (IrrOutcome.value 0)).2.2 0 hc⟩

/-- First index (from the given start) whose entry is `≤ 0`: model of
`np.where(cost_difference <= 0)[0]` followed by taking the first hit. -/
def firstNonpos : ℕ → List ℚ → Option ℕ
  | _, [] => none
  | i, x :: xs => if x ≤ 0 then some i else firstNonpos (i + 1) xs

/-- `calculate_breakeven_month` (`src/calc/metrics.py` lines 68-92): the
mismatched-length guard returns `None` — the source has no raise path. -/
def calculate_breakeven_month (buy_cumulative_costs rent_cumulative_costs : List ℚ) :
    Option ℕ :=
  if buy_cumulative_costs.length ≠ rent_cumulative_costs.length then none
  else
    match firstNonpos 0
        (List.zipWith (fun a b => a - b) buy_cumulative_costs rent_cumulative_costs) with
    | some i => some (i + 1)
    | none => none

lemma firstNonpos_shift (l : List ℚ) :
    ∀ s : ℕ, firstNonpos s l = (firstNonpos 0 l).map (· + s) := by
  induction l with
  | nil => intro s; rfl
  | cons x xs ih =>
    intro s
    simp only [firstNonpos]
    split
    · simp
    · rw [ih (s + 1), ih 1]
      cases firstNonpos 0 xs with
      | none => simp
      | some v => simp; omega

lemma firstNonpos_zero_some (l : List ℚ) :
    ∀ i : ℕ, firstNonpos 0 l = some i →
      ∃ h : i < l.length,
        l.get ⟨i, h⟩ ≤ 0 ∧ ∀ (j : ℕ) (hj : j < l.length), j < i → 0 < l.get ⟨j, hj⟩ := by
  induction l with
  | nil => intro i hi; exact absurd hi (by simp [firstNonpos])
  | cons x xs ih =>
    intro i hi
    rw [firstNonpos] at hi
    by_cases hx : x ≤ 0
    · rw [if_pos hx] at hi
      have hi0 : i = 0 := (Option.some_inj.mp hi).symm
      subst hi0
      refine ⟨by simp, hx, ?_⟩
      intro j hj hj0
      omega
    · rw [if_neg hx, firstNonpos_shift xs 1] at hi
      cases hv : firstNonpos 0 xs with
      | none => rw [hv] at hi; exact absurd hi (by simp)
      | some v =>
        rw [hv] at hi
        have hiv : i = v + 1 := (Option.some_inj.mp hi).symm
        subst hiv
        obtain ⟨hvlen, hvle, hvprev⟩ := ih v hv
        refine ⟨by simpa using hvlen, by simpa using hvle, ?_⟩
        intro j hj hjlt
        cases j with
        | zero => simpa using lt_of_not_le hx
        | succ j2 =>
          have hj2 : j2 < xs.length := by simpa using hj
          simpa using hvprev j2 hj2 (by omega)

lemma firstNonpos_zero_none (l : List ℚ) :
    firstNonpos 0 l = none →
      ∀ (i : ℕ) (h : i < l.length), 0 < l.get ⟨i, h⟩ := by
  induction l with
  | nil => intro _ i h; simp at h
  | cons x xs ih =>
    intro hnone i h
    rw [firstNonpos] at hnone
    by_cases hx : x ≤ 0
    · rw [if_pos hx] at hnone; exact absurd hnone (by simp)
    · rw [if_neg hx, firstNonpos_shift xs 1] at hnone
      have hxs : firstNonpos 0 xs = none := by
        cases hv : firstNonpos 0 xs with
        | none => rfl
        | some v => rw [hv] at hnone; exact absurd hnone (by simp)
      cases i with
      | zero => simpa using lt_of_not_le hx
      | succ j =>
        have hj : j < xs.length := by simpa using h
        simpa using ih hxs j hj

lemma get_zipWith_sub (a : List ℚ) :
    ∀ (b : List ℚ) (i : ℕ)
      (h : i < (List.zipWith (fun x y => x - y) a b).length)
      (h1 : i < a.length) (h2 : i < b.length),
      (List.zipWith (fun x y => x - y) a b).get ⟨i, h⟩
        = a.get ⟨i, h1⟩ - b.get ⟨i, h2⟩ := by
  induction a with
  | nil => intro b i h h1 h2; simp at h1
  | cons x xs ih =>
    intro b i h h1 h2
    cases b with
    | nil => simp at h2
    | cons y ys =>
      cases i with
      | zero => rfl
      | succ j =>
        have hj : j < (List.zipWith (fun x y => x - y) xs ys).length := by
          simpa using h
        have hj1 : j < xs.length := by simpa using h1
        have hj2 : j < ys.length := by simpa using h2
        simpa using ih ys j hj hj1 hj2

/-- Claim C8 as stated is refuted here: on mismatched-length series the
function returns the explicit no-value `none` — a normal return, not a
raised exception (the source's guard is `return None`; no raise path
exists in `calculate_breakeven_month`). -/
theorem breakeven_counterexample :
    ([(1 : ℚ)].length ≠ [(1 : ℚ), 2].length) ∧
    calculate_breakeven_month [(1 : ℚ)] [(1 : ℚ), 2] = none := by
  refine ⟨by norm_num, ?_⟩
  rw [calculate_breakeven_month, if_pos (by norm_num)]

/-- Claim C8 (amended): mismatched lengths yield the explicit no-value
`None` (same signal as "never breaks even"), not an exception; for
equal-length series the result is the first 1-based index at which
cumulative buy cost ≤ cumulative rent cost, and `None` when buy stays
strictly above rent for the whole horizon. -/
theorem breakeven_spec (buy rent : List ℚ) :
    (buy.length ≠ rent.length → calculate_breakeven_month buy rent = none) ∧
    (buy.length = rent.length →
      (∀ mo : ℕ, calculate_breakeven_month buy rent = some mo →
        1 ≤ mo ∧ mo ≤ buy.length ∧
        (∀ (h1 : mo - 1 < buy.length) (h2 : mo - 1 < rent.length),
          buy.get ⟨mo - 1, h1⟩ ≤ rent.get ⟨mo - 1, h2⟩) ∧
        (∀ (j : ℕ) (hj1 : j < buy.length) (hj2 : j < rent.length), j < mo - 1 →
          rent.get ⟨j, hj2⟩ < buy.get ⟨j, hj1⟩)) ∧
      (calculate_breakeven_month buy rent = none →
        ∀ (i : ℕ) (h1 : i < buy.length) (h2 : i < rent.length),
          rent.get ⟨i, h2⟩ < buy.get ⟨i, h1⟩)) := by
  constructor
  · intro hne
    rw [calculate_breakeven_month, if_pos hne]
  · intro hlen
    have hzlen : (List.zipWith (fun a b => a - b) buy rent).length = buy.length := by
      rw [List.length_zipWith, hlen, min_self]
    constructor
    · intro mo hmo
      rw [calculate_breakeven_month, if_neg (by omega)] at hmo
      cases hfp : firstNonpos 0 (List.zipWith (fun a b => a - b) buy rent) with
      | none => rw [hfp] at hmo; exact absurd hmo (by simp)
      | some i =>
        rw [hfp] at hmo
        have hmoi : mo = i + 1 := (Option.some_inj.mp hmo).symm
        subst hmoi
        obtain ⟨hilen, hile, hiprev⟩ := firstNonpos_zero_some _ i hfp
        have hib : i < buy.length := by rwa [hzlen] at hilen
        refine ⟨by omega, by omega, ?_, ?_⟩
        · intro h1 h2
          have := hile
          rw [get_zipWith_sub buy rent i hilen (by omega) (by omega)] at this
          have hsub : buy.get ⟨i, by omega⟩ ≤ rent.get ⟨i, by omega⟩ := by linarith
          simpa using hsub
        · intro j hj1 hj2 hjlt
          have hjz : j < (List.zipWith (fun a b => a - b) buy rent).length := by omega
          have := hiprev j hjz (by omega)
          rw [get_zipWith_sub buy rent j hjz (by omega) (by omega)] at this
          linarith
    · intro hnone i h1 h2
      rw [calculate_breakeven_month, if_neg (by omega)] at hnone
      cases hfp : firstNonpos 0 (List.zipWith (fun a b => a - b) buy rent) with
      | some v => rw [hfp] at hnone; exact absurd hnone (by simp)
      | none =>
        have hiz : i < (List.zipWith (fun a b => a - b) buy rent).length := by omega
        have := firstNonpos_zero_none _ hfp i hiz
        rw [get_zipWith_sub buy rent i hiz (by omega) (by omega)] at this
        linarith

/-- Witness for `breakeven_spec` on equal-length series where buying
breaks even at month 2. -/
theorem breakeven_spec_witness :
    ([(3 : ℚ), 1].length = [(2 : ℚ), 2].length) ∧
    calculate_breakeven_month [(3 : ℚ), 1] [(2 : ℚ), 2] = some 2 ∧
    1 ≤ 2 ∧ 2 ≤ [(3 : ℚ), 1].length := by
  have hsome : calculate_breakeven_month [(3 : ℚ), 1] [(2 : ℚ), 2] = some 2 := by
    norm_num [calculate_breakeven_month, firstNonpos]
  have hres := ((breakeven_spec [3, 1] [2, 2]).2 rfl).1 2 hsome
  exact ⟨rfl, hsome, hres.1, hres.2.1⟩

/-- `calculate_npv` (`src/calc/metrics.py` lines 10-34):
`Σ cashflow[i] × (1+r)^(−i)`, with the empty series giving 0. -/
def calculate_npv (cash_flows : List ℚ) (discount_rate_monthly : ℚ) : ℚ :=
  ((List.range cash_flows.length).map
    (fun i => cash_flows.getD i 0 * ((1 + discount_rate_monthly) ^ i)⁻¹)).sum

/-- `cash_flows[-1] += x` of `calculate_buy_vs_rent_irr`. -/
def addToLast (x : ℚ) : List ℚ → List ℚ
  | [] => []
  | [a] => [a + x]
  | a :: b :: rest => a :: addToLast x (b :: rest)

/-- `calculate_buy_vs_rent_irr` (`src/calc/metrics.py` lines 95-127), with
the root-finder oracle passed through to `calculate_irr`. -/
def calculate_buy_vs_rent_irr (irrRoot : List ℚ → IrrOutcome) (u : UserInputs)
    (d : DerivedInputs) (buy_cash_flows : List BuyRow)
    (final_home_equity : ℚ) : Option ℚ :=
  let cash_flows := -(d.down_payment_amount + u.closing_costs_buy) ::
    buy_cash_flows.map (fun row => -row.net_monthly_outflow)
  calculate_irr (irrRoot (addToLast final_home_equity cash_flows))

/-- `calculate_home_equity_at_exit` (`src/calc/buy_flow.py` lines 217-250). -/
def calculate_home_equity_at_exit (u : UserInputs) (d : DerivedInputs)
    (exit_month : ℕ) : ℚ :=
  let exit_home_value := u.purchase_price *
    (1 + d.monthly_appreciation_rate) ^ (exit_month - 1)
  let remaining := remaining_balance_at_month d.loan_amount u.mortgage_rate
    u.mortgage_term_years (exit_month : ℤ)
  let selling_costs := exit_home_value * u.selling_cost_pct
  max (exit_home_value - remaining - selling_costs) 0

/-- pandas `.mean()` of a numeric column. -/
def listMean (l : List ℚ) : ℚ := l.sum / (l.length : ℚ)

/-- `CalculationResults` (`src/calc/models.py` lines 89-113). -/
structure CalculationResults where
  monthly_buy_payment : ℚ
  monthly_buy_after_tax : ℚ
  monthly_rent_payment : ℚ
  monthly_invested_surplus : ℚ
  home_equity_at_exit : ℚ
  investment_portfolio_value : ℚ
  net_worth_difference : ℚ
  npv_buy_costs : ℚ
  npv_rent_costs : ℚ
  npv_difference : ℚ
  irr_buy_investment : Option ℚ
  breakeven_month : Option ℕ
  total_interest_paid : ℚ
  total_tax_shield : ℚ
  total_appreciation : ℚ
deriving Repr, DecidableEq

/-- `run_full_analysis` (`src/calc/engine.py` lines 13-113).  The
`numpy_financial.irr` root-finder — itself a deterministic numerical
routine with no state — is abstracted as the explicit function argument
`irrRoot`; everything else is translated directly.  The source performs no
I/O, consults no clock and uses no randomness, so the whole pipeline is a
pure function of its arguments. -/
def run_full_analysis (irrRoot : List ℚ → IrrOutcome) (u : UserInputs)
    (tp : TaxParams) : CalculationResults :=
  let d := DerivedInputs.from_user_inputs u
  let buy := calculate_buy_cash_flows u d tp
  let rent := calculate_rent_cash_flows u d
    (buy.map (fun row => row.net_monthly_outflow))
  let final_home_equity := calculate_home_equity_at_exit u d d.horizon_months
  let final_portfolio_value :=
    match rent.getLast? with
    | some row => row.portfolio_balance
    | none => 0
  let npv_buy_costs := calculate_npv
    (buy.map (fun row => row.net_monthly_outflow)) d.monthly_inflation_rate
  let npv_rent_costs := calculate_npv
    (rent.map (fun row => row.total_rent_outflow)) d.monthly_inflation_rate
  let breakeven_month := calculate_breakeven_month
    (buy.map (fun row => row.cumulative_net_outflow))
    (rent.map (fun row => row.cumulative_rent_outflow))
  let irr_buy := calculate_buy_vs_rent_irr irrRoot u d buy final_home_equity
  let avg_buy_payment :=
    if buy.isEmpty then 0 else listMean (buy.map (fun row => row.net_monthly_outflow))
  let avg_rent_payment :=
    if rent.isEmpty then 0 else listMean (rent.map (fun row => row.total_rent_outflow))
  let avg_invested_surplus :=
    if rent.isEmpty then 0 else listMean (rent.map (fun row => row.monthly_surplus))
  let total_interest_paid :=
    if buy.isEmpty then 0 else (buy.map (fun row => row.mortgage_interest)).sum
  let total_tax_shield :=
    if buy.isEmpty then 0 else (buy.map (fun row => row.tax_shield)).sum
  let total_appreciation :=
    if final_home_equity > 0 then final_home_equity - d.down_payment_amount else 0
  { monthly_buy_payment := avg_buy_payment
    monthly_buy_after_tax := avg_buy_payment
    monthly_rent_payment := avg_rent_payment
    monthly_invested_surplus := avg_invested_surplus
    home_equity_at_exit := final_home_equity
    investment_portfolio_value := final_portfolio_value
    net_worth_difference := final_home_equity - final_portfolio_value
    npv_buy_costs := npv_buy_costs
    npv_rent_costs := npv_rent_costs
    npv_difference := npv_buy_costs - npv_rent_costs
    irr_buy_investment := irr_buy
    breakeven_month := breakeven_month
    total_interest_paid := total_interest_paid
    total_tax_shield := total_tax_shield
    total_appreciation := total_appreciation }

/-- Claim C9: `run_full_analysis` is deterministic — in this embedding it
is a pure function of `(user_inputs, tax_params)` (given the fixed
root-finder oracle), which is faithful because the source consumes no
randomness, performs no I/O and reads no clock; hence identical inputs
yield identical `CalculationResults`. -/
theorem run_full_analysis_deterministic (irrRoot : List ℚ → IrrOutcome)
    (u u2 : UserInputs) (tp tp2 : TaxParams) (hu : u = u2) (ht : tp = tp2) :
    run_full_analysis irrRoot u tp = run_full_analysis irrRoot u2 tp2 := by
  rw [hu, ht]

/-- Witness for `run_full_analysis_deterministic` at concrete inputs. -/
theorem run_full_analysis_deterministic_witness :
    uC10 = uC10 ∧ tpC7 = tpC7 ∧
    run_full_analysis (fun _ => IrrOutcome.raises) uC10 tpC7
      = run_full_analysis (fun _ => IrrOutcome.raises) uC10 tpC7 :=
  ⟨rfl, rfl,
    run_full_analysis_deterministic (fun _ => IrrOutcome.raises)
      uC10 uC10 tpC7 tpC7 rfl rfl⟩

end RentVsBuy
